import Mathlib

/-! # GTK4 counter samples: the counter state machine and its label

Shallow embedding of the two C programs

* `gtk4-c-counter-app/main.c` (imperative variant: a process-wide `counter`
  and a process-wide `labelCounter` pointer), and
* `gtk4-c-counter-app-with-template/counterapp.c`, `counterappwin.c`
  (template variant: `counter` and `label_counter` are fields of the window
  instance).

Conventions of the embedding.

* A C `int` is an `Int` kept in `[INT_MIN, INT_MAX]`; `++` and `--` are
  followed by `wrapInt` (two's complement wrap-around, what the compiled
  `add`/`sub` on the memory cell does).
* `sprintf (buf, "%d", v)` writes the decimal text of `v` and a terminating
  NUL into `buf`.  The buffers of the source have 10 bytes; a text that does
  not fit writes past the end of the array, which is a fault of the run.
* GTK widgets live in a store; a `GtkWidget *` is an index into the store of
  labels (`none` is `NULL`).
-/

namespace CounterSamples

/-! ## Machine integers -/

/-- Smallest value of a 32-bit C `int`. -/
def INT_MIN : Int := -2147483648

/-- Largest value of a 32-bit C `int`. -/
def INT_MAX : Int := 2147483647

/-- Two's complement reduction of a mathematical integer to a 32-bit `int`. -/
def wrapInt (x : Int) : Int := (x + 2147483648) % 4294967296 - 2147483648

/-! ## The `%d` conversion of `sprintf` -/

/-- The character of a decimal digit `0 .. 9`. -/
def digitChar (d : Nat) : Char := Char.ofNat (48 + d)

/-- Digits of `n`, least significant produced first and pushed in front of
`acc`; `fuel` bounds the number of digits produced. -/
def digitsAux : Nat → Nat → List Char → List Char
  | 0, _, acc => acc
  | fuel + 1, n, acc =>
    if n / 10 = 0 then digitChar (n % 10) :: acc
    else digitsAux fuel (n / 10) (digitChar (n % 10) :: acc)

/-- Decimal digits of a natural number, most significant first. -/
def natDigits (n : Nat) : List Char := digitsAux (n + 1) n []

/-- Text produced by the `%d` conversion: an optional `-` and the digits of
the magnitude. -/
def formatInt (v : Int) : List Char :=
  if v < 0 then '-' :: natDigits v.natAbs else natDigits v.natAbs

/-- Ways in which a run of the program leaves defined behaviour. -/
inductive Fault where
  /-- A write past the end of a `char` array. -/
  | bufferOverflow
  /-- A dereference of a pointer to no live object. -/
  | badPointer
  deriving DecidableEq, Repr

/-- Number of bytes `sprintf` writes for the value `v`: the text and the
terminating NUL. -/
def bytesWritten (v : Int) : Nat := (formatInt v).length + 1

/-- Call `sprintf (buf, "%d", v)` on a buffer declared `char buf[size]`:
the resulting C string, or a fault when the write does not fit. -/
def sprintf (size : Nat) (v : Int) : Except Fault String :=
  if bytesWritten v ≤ size then .ok (String.mk (formatInt v))
  else .error .bufferOverflow

/-! ## Canonical decimal text, as the specification words it -/

/-- Value of a decimal digit character. -/
def digitValue (c : Char) : Nat := c.toNat - 48

/-- Number denoted by a string of decimal digits, most significant first. -/
def digitsValue (ds : List Char) : Nat :=
  ds.foldl (fun a c => 10 * a + digitValue c) 0

/-- A digit string in canonical form: not empty, decimal digits only (so no
separator), and no leading zero except for the string `0` itself. -/
def CanonicalDigits (ds : List Char) : Prop :=
  ds ≠ [] ∧ (∀ c ∈ ds, c.isDigit = true) ∧ (ds.head? = some '0' → ds = ['0'])

instance (ds : List Char) : Decidable (CanonicalDigits ds) := by
  unfold CanonicalDigits; infer_instance

/-- The text `t` is the canonical decimal string of `v`: a leading `-`
exactly when `v` is negative, then the canonical digits of the magnitude. -/
def IsCanonicalDecimal (t : List Char) (v : Int) : Prop :=
  if t.head? = some '-' then
    v < 0 ∧ CanonicalDigits t.tail ∧ (digitsValue t.tail : Int) = -v
  else
    0 ≤ v ∧ CanonicalDigits t ∧ (digitsValue t : Int) = v

instance (t : List Char) (v : Int) : Decidable (IsCanonicalDecimal t v) := by
  unfold IsCanonicalDecimal; infer_instance

/-! ## GTK labels

The store of label widgets is the list of their texts; the address of a
label is its position in the store. -/

/-- The call `gtk_label_new (str)`: the store with one more label, and the
address of the new label. -/
def gtk_label_new (labels : List String) (str : String) : List String × Nat :=
  (labels ++ [str], labels.length)

/-- The call `gtk_label_set_label (GTK_LABEL (p), str)`.  GTK checks its
argument first and returns without effect when it is `NULL`. -/
def gtk_label_set_label (labels : List String) (p : Option Nat) (str : String) :
    List String :=
  match p with
  | none => labels
  | some a => labels.set a str

/-- Address of a button widget; the click handlers never read it. -/
abbrev GtkButton := Nat

/-- The two buttons of a window. -/
inductive Click where
  | increase
  | decrease
  deriving DecidableEq, Repr

deriving instance DecidableEq for Except

/-! ## Imperative variant: `gtk4-c-counter-app/main.c` -/

/-- Process state of `main.c`: the file-scope `counter`, the file-scope
pointer `labelCounter`, and the labels created so far.  Every run of
`activate` creates one label and one window around it, so window `k`
(in creation order, from 0) displays the label at address `k`. -/
structure MainState where
  counter : Int
  labelCounter : Option Nat
  labels : List String
  deriving DecidableEq, Repr

/-- State at process start: `static int counter = 0;` and the
zero-initialised pointer `labelCounter`. -/
def MainState.init : MainState := { counter := 0, labelCounter := none, labels := [] }

/-- Label text shown by window `k`. -/
def MainState.windowLabel (s : MainState) (k : Nat) : Option String := s.labels[k]?

/-- Text of the label the handlers write to, the one `labelCounter` points to. -/
def MainState.boundLabel (s : MainState) : Option String :=
  match s.labelCounter with
  | none => none
  | some p => s.labels[p]?

/-- Source lines 6 to 12 of `main.c`. -/
def increase_click_callback (_btn : GtkButton) (s : MainState) : Except Fault MainState :=
  let counter := wrapInt (s.counter + 1)
  match sprintf 10 counter with
  | .error e => .error e
  | .ok counterStr =>
    .ok { s with counter := counter,
                 labels := gtk_label_set_label s.labels s.labelCounter counterStr }

/-- Source lines 14 to 20 of `main.c`. -/
def decrease_click_callback (_btn : GtkButton) (s : MainState) : Except Fault MainState :=
  let counter := wrapInt (s.counter - 1)
  match sprintf 10 counter with
  | .error e => .error e
  | .ok counterStr =>
    .ok { s with counter := counter,
                 labels := gtk_label_set_label s.labels s.labelCounter counterStr }

/-- Source lines 22 to 62 of `main.c`: format the counter, create the label
and store its address in `labelCounter`; the buttons, the box and the window
built afterwards hold no counter state. -/
def activate (s : MainState) : Except Fault MainState :=
  match sprintf 10 s.counter with
  | .error e => .error e
  | .ok counterStr =>
    let r := gtk_label_new s.labels counterStr
    .ok { s with labelCounter := some r.2, labels := r.1 }

/-- What the GTK main loop delivers to `main.c`. -/
inductive MainEvent where
  /-- The `activate` signal of the application. -/
  | activate
  /-- The `clicked` signal of a button of window `window`. -/
  | clicked (window : Nat) (c : Click)
  deriving DecidableEq, Repr

/-- Dispatch of one event.  The buttons of every window are connected to the
same two callbacks; a click on a window that was never created cannot be
delivered and runs no handler. -/
def mainStep (s : MainState) : MainEvent → Except Fault MainState
  | .activate => activate s
  | .clicked w c =>
    if w < s.labels.length then
      match c with
      | .increase => increase_click_callback w s
      | .decrease => decrease_click_callback w s
    else .ok s

/-- Dispatch of a sequence of events, stopping at the first fault. -/
def mainRun : List MainEvent → MainState → Except Fault MainState
  | [], s => .ok s
  | e :: es, s =>
    match mainStep s e with
    | .error f => .error f
    | .ok s1 => mainRun es s1

/-! ## Template variant: `counterappwin.c` and `counterapp.c` -/

/-- Instance fields of `struct _CounterAppWindow`. -/
structure CounterAppWindow where
  label_counter : Option Nat
  counter : Int
  deriving DecidableEq, Repr

/-- A file handed to the `open` signal. -/
abbrev GFile := String

/-- Process state of the template variant: the labels, the window instances
(the address of an instance is its position in `wins`), and the window list
of the application as `gtk_application_get_windows` returns it, most recently
focused first. -/
structure AppState where
  labels : List String
  wins : List CounterAppWindow
  windows : List Nat
  deriving DecidableEq, Repr

/-- State at process start: no window yet. -/
def AppState.init : AppState := { labels := [], wins := [], windows := [] }

/-- Counter of the window at address `win`. -/
def AppState.counterOf (s : AppState) (win : Nat) : Option Int :=
  match s.wins[win]? with
  | none => none
  | some w => some w.counter

/-- Text of the label bound to the window at address `win`. -/
def AppState.boundLabel (s : AppState) (win : Nat) : Option String :=
  match s.wins[win]? with
  | none => none
  | some w =>
    match w.label_counter with
    | none => none
    | some p => s.labels[p]?

/-- Source lines 16 to 23 of `counterappwin.c`. -/
def button_increase_on_clicked (_btn : GtkButton) (win : Nat) (s : AppState) :
    Except Fault AppState :=
  match s.wins[win]? with
  | none => .error .badPointer
  | some w =>
    let counter := wrapInt (w.counter + 1)
    match sprintf 10 counter with
    | .error e => .error e
    | .ok counter_str =>
      .ok { s with wins := s.wins.set win { w with counter := counter },
                   labels := gtk_label_set_label s.labels w.label_counter counter_str }

/-- Source lines 25 to 32 of `counterappwin.c`. -/
def button_decrease_on_clicked (_btn : GtkButton) (win : Nat) (s : AppState) :
    Except Fault AppState :=
  match s.wins[win]? with
  | none => .error .badPointer
  | some w =>
    let counter := wrapInt (w.counter - 1)
    match sprintf 10 counter with
    | .error e => .error e
    | .ok counter_str =>
      .ok { s with wins := s.wins.set win { w with counter := counter },
                   labels := gtk_label_set_label s.labels w.label_counter counter_str }

/-- Source lines 34 to 38 of `counterappwin.c`.  `gtk_widget_init_template`
builds the children described by `window.ui` and stores the address of the
new label in the bound field `label_counter` (line 46).  The resource
`window.ui` is not part of the C sources; `templateLabel` is the text it
gives to the label. -/
def counter_app_window_init (templateLabel : String) (win : Nat) (s : AppState) :
    Except Fault AppState :=
  match s.wins[win]? with
  | none => .error .badPointer
  | some w =>
    let r := gtk_label_new s.labels templateLabel
    .ok { s with labels := r.1, wins := s.wins.set win { w with label_counter := some r.2 } }

/-- Source lines 52 to 56 of `counterappwin.c`.  `g_object_new` allocates a
zero-filled instance, runs the instance initialiser and sets the
`application` property, which puts the window in front of the window list of
the application.  Returns the new state and the address of the window. -/
def counter_app_window_new (templateLabel : String) (s : AppState) :
    Except Fault (AppState × Nat) :=
  let win := s.wins.length
  let s1 := { s with wins := s.wins ++ [{ label_counter := none, counter := 0 }] }
  match counter_app_window_init templateLabel win s1 with
  | .error e => .error e
  | .ok s2 => .ok ({ s2 with windows := win :: s2.windows }, win)

/-- Source lines 58 to 62 of `counterappwin.c`: the body is empty. -/
def counter_app_window_open (_win : Nat) (_file : GFile) (s : AppState) : AppState := s

/-- The call `gtk_window_present`: the window gets the focus and moves to
the front of the window list. -/
def gtk_window_present (win : Nat) (s : AppState) : AppState :=
  { s with windows := win :: s.windows.erase win }

/-- Source lines 18 to 25 of `counterapp.c`. -/
def counter_app_activate (templateLabel : String) (s : AppState) : Except Fault AppState :=
  match counter_app_window_new templateLabel s with
  | .error e => .error e
  | .ok r => .ok (gtk_window_present r.2 r.1)

/-- Source lines 27 to 47 of `counterapp.c`. -/
def counter_app_open (templateLabel : String) (files : List GFile) (_hint : String)
    (s : AppState) : Except Fault AppState :=
  let r : Except Fault (AppState × Nat) :=
    match s.windows with
    | w :: _ => .ok (s, w)
    | [] => counter_app_window_new templateLabel s
  match r with
  | .error e => .error e
  | .ok r =>
    let s2 := files.foldl (fun st file => counter_app_window_open r.2 file st) r.1
    .ok (gtk_window_present r.2 s2)

/-- What the GTK main loop delivers to the template variant. -/
inductive AppEvent where
  /-- The `activate` signal of the application. -/
  | activate
  /-- The `open` signal of the application. -/
  | openFiles (files : List GFile) (hint : String)
  /-- The `clicked` signal of a button of the window at address `win`. -/
  | clicked (win : Nat) (c : Click)
  deriving DecidableEq, Repr

/-- Dispatch of one event; a click on a window that was never created cannot
be delivered and runs no handler. -/
def appStep (templateLabel : String) (s : AppState) : AppEvent → Except Fault AppState
  | .activate => counter_app_activate templateLabel s
  | .openFiles files hint => counter_app_open templateLabel files hint s
  | .clicked win c =>
    if win < s.wins.length then
      match c with
      | .increase => button_increase_on_clicked win win s
      | .decrease => button_decrease_on_clicked win win s
    else .ok s

/-- Dispatch of a sequence of events, stopping at the first fault. -/
def appRun (templateLabel : String) : List AppEvent → AppState → Except Fault AppState
  | [], s => .ok s
  | e :: es, s =>
    match appStep templateLabel s e with
    | .error f => .error f
    | .ok s1 => appRun templateLabel es s1

/-! ## Runs of one window and observations -/

/-- Change of the counter a click asks for. -/
def Click.delta : Click → Int
  | .increase => 1
  | .decrease => -1

/-- Number of increases minus number of decreases of a click sequence. -/
def netClicks (cs : List Click) : Int :=
  (cs.count Click.increase : Int) - (cs.count Click.decrease : Int)

/-- The value fits the 10-byte buffers of the handlers. -/
def FitsBuffer (v : Int) : Prop := -99999999 ≤ v ∧ v ≤ 999999999

instance (v : Int) : Decidable (FitsBuffer v) := by
  unfold FitsBuffer; infer_instance

/-- Run of the imperative variant from process start: one `activate`, then
the clicks `cs` on the window it created. -/
def mainSession (cs : List Click) : Except Fault MainState :=
  mainRun (MainEvent.activate :: cs.map (MainEvent.clicked 0)) MainState.init

/-- Run of the template variant from process start: one `activate`, then
the clicks `cs` on the window it created. -/
def appSession (templateLabel : String) (cs : List Click) : Except Fault AppState :=
  appRun templateLabel (AppEvent.activate :: cs.map (AppEvent.clicked 0)) AppState.init

/-- What a user sees of window `k` of the imperative variant: the counter
the window works on and the text of its label. -/
def MainState.observe (s : MainState) (k : Nat) : Option Int × Option String :=
  (some s.counter, s.windowLabel k)

/-- What a user sees of the window at address `win` of the template
variant: its counter and the text of its label. -/
def AppState.observe (s : AppState) (win : Nat) : Option Int × Option String :=
  (s.counterOf win, s.boundLabel win)

/-- Observation of a run that may have faulted. -/
def observed {σ : Type} (f : σ → Option Int × Option String) :
    Except Fault σ → Except Fault (Option Int × Option String)
  | .error e => .error e
  | .ok s => .ok (f s)

/-- Invariant of the template variant: the label pointers of the windows
point into the store of labels, and no two windows point to the same label. -/
def AppState.LabelsDistinct (s : AppState) : Prop :=
  (∀ (i : Nat) (w : CounterAppWindow) (p : Nat),
    s.wins[i]? = some w → w.label_counter = some p → p < s.labels.length) ∧
  (∀ (i j : Nat) (wi wj : CounterAppWindow) (p : Nat),
    s.wins[i]? = some wi → s.wins[j]? = some wj →
    wi.label_counter = some p → wj.label_counter = some p → i = j)

/-- Invariant of the imperative variant: `labelCounter` is `NULL` before the
first `activate` and afterwards points to the label created last. -/
def MainState.PointsToLast (s : MainState) : Prop :=
  s.labelCounter = if s.labels.length = 0 then none else some (s.labels.length - 1)

/-! ## Lemmas on the decimal text -/

theorem digitsAux_length_ge (fuel n : Nat) (acc : List Char) :
    acc.length ≤ (digitsAux fuel n acc).length := by
  induction fuel generalizing n acc with
  | zero => simp [digitsAux]
  | succ f ih =>
    unfold digitsAux
    split
    · simp
    · have := ih (n / 10) (digitChar (n % 10) :: acc)
      simp only [List.length_cons] at this
      omega

theorem digitsAux_length_gt (fuel n : Nat) (acc : List Char) (h : 0 < fuel) :
    acc.length + 1 ≤ (digitsAux fuel n acc).length := by
  cases fuel with
  | zero => omega
  | succ f =>
    unfold digitsAux
    split
    · simp
    · have := digitsAux_length_ge f (n / 10) (digitChar (n % 10) :: acc)
      simp only [List.length_cons] at this
      omega

theorem digitsAux_length_le_iff (fuel n : Nat) (acc : List Char) (k : Nat) (h : n < fuel) :
    (digitsAux fuel n acc).length ≤ acc.length + (k + 1) ↔ n < 10 ^ (k + 1) := by
  induction fuel generalizing n acc k with
  | zero => omega
  | succ f ih =>
    unfold digitsAux
    split
    · rename_i h0
      have hn : n < 10 := by omega
      have : 10 ≤ 10 ^ (k + 1) := by
        calc 10 = 10 ^ 1 := by norm_num
          _ ≤ 10 ^ (k + 1) := Nat.pow_le_pow_right (by norm_num) (by omega)
      simp only [List.length_cons]
      constructor
      · intro _; omega
      · intro _; omega
    · rename_i h0
      have hn : 10 ≤ n := by omega
      have hlt : n / 10 < f := by omega
      cases k with
      | zero =>
        have h2 := digitsAux_length_gt f (n / 10) (digitChar (n % 10) :: acc) (by omega)
        simp only [List.length_cons] at h2
        constructor
        · intro h3; omega
        · intro h3; simp at h3; omega
      | succ k =>
        have h2 := ih (n / 10) (digitChar (n % 10) :: acc) k hlt
        simp only [List.length_cons] at h2
        have h3 : n / 10 < 10 ^ (k + 1) ↔ n < 10 ^ (k + 1 + 1) := by
          rw [Nat.div_lt_iff_lt_mul (by norm_num), pow_succ 10 (k + 1)]
        rw [← h3, ← h2]
        omega

theorem natDigits_length_le_iff (n k : Nat) :
    (natDigits n).length ≤ k + 1 ↔ n < 10 ^ (k + 1) := by
  have := digitsAux_length_le_iff (n + 1) n [] k (by omega)
  simpa [natDigits] using this

theorem bytesWritten_le_ten_iff (v : Int) :
    bytesWritten v ≤ 10 ↔ -99999999 ≤ v ∧ v ≤ 999999999 := by
  unfold bytesWritten formatInt
  split
  · rename_i hneg
    have := natDigits_length_le_iff v.natAbs 7
    simp only [List.length_cons]
    norm_num at this
    omega
  · rename_i hpos
    have := natDigits_length_le_iff v.natAbs 8
    norm_num at this
    omega

theorem digitsAux_eq_append (n : Nat) :
    ∀ (fuel : Nat) (acc : List Char), n < fuel → digitsAux fuel n acc = natDigits n ++ acc := by
  induction n using Nat.strong_induction_on with
  | _ n ih =>
    intro fuel acc h
    cases fuel with
    | zero => omega
    | succ f =>
      unfold natDigits
      rw [digitsAux, digitsAux]
      by_cases h0 : n / 10 = 0
      · simp [h0]
      · simp only [h0, if_false]
        have hlt : n / 10 < n := by omega
        rw [ih (n / 10) hlt f _ (by omega), ih (n / 10) hlt n _ hlt]
        simp

theorem natDigits_eq (n : Nat) :
    natDigits n =
      if n / 10 = 0 then [digitChar (n % 10)]
      else natDigits (n / 10) ++ [digitChar (n % 10)] := by
  conv_lhs => unfold natDigits
  rw [digitsAux]
  by_cases h0 : n / 10 = 0
  · simp [h0]
  · simp only [h0, if_false]
    exact digitsAux_eq_append (n / 10) n _ (by omega)

theorem digitChar_isDigit (d : Nat) (h : d < 10) : (digitChar d).isDigit = true := by
  interval_cases d <;> rfl

theorem digitValue_digitChar (d : Nat) (h : d < 10) : digitValue (digitChar d) = d := by
  interval_cases d <;> rfl

theorem digitChar_eq_zero (d : Nat) (h : d < 10) (h0 : digitChar d = '0') : d = 0 := by
  interval_cases d <;> first | rfl | (exfalso; revert h0; decide)

theorem digitsValue_append_singleton (ds : List Char) (c : Char) :
    digitsValue (ds ++ [c]) = 10 * digitsValue ds + digitValue c := by
  simp [digitsValue, List.foldl_append]

theorem natDigits_ne_nil (n : Nat) : natDigits n ≠ [] := by
  rw [natDigits_eq]; split <;> simp

theorem natDigits_isDigit (n : Nat) : ∀ c ∈ natDigits n, c.isDigit = true := by
  induction n using Nat.strong_induction_on with
  | _ n ih =>
    intro c hc
    rw [natDigits_eq] at hc
    split at hc
    · simp only [List.mem_singleton] at hc
      subst hc
      exact digitChar_isDigit _ (Nat.mod_lt _ (by norm_num))
    · rw [List.mem_append] at hc
      rcases hc with hc | hc
      · exact ih (n / 10) (by omega) c hc
      · simp only [List.mem_singleton] at hc
        subst hc
        exact digitChar_isDigit _ (Nat.mod_lt _ (by norm_num))

theorem digitsValue_natDigits (n : Nat) : digitsValue (natDigits n) = n := by
  induction n using Nat.strong_induction_on with
  | _ n ih =>
    rw [natDigits_eq]
    split
    · rename_i h0
      have : digitValue (digitChar (n % 10)) = n % 10 :=
        digitValue_digitChar _ (Nat.mod_lt _ (by norm_num))
      simp only [digitsValue, List.foldl_cons, List.foldl_nil, this]
      omega
    · rename_i h0
      rw [digitsValue_append_singleton, ih (n / 10) (by omega),
        digitValue_digitChar _ (Nat.mod_lt _ (by norm_num))]
      omega

theorem natDigits_head (n : Nat) (h : (natDigits n).head? = some '0') : natDigits n = ['0'] := by
  induction n using Nat.strong_induction_on with
  | _ n ih =>
    rw [natDigits_eq] at h ⊢
    split
    · rename_i h0
      simp only [h0, if_true, List.head?_cons, Option.some.injEq] at h
      rw [h]
    · rename_i h0
      simp only [h0, if_false] at h
      have hne := natDigits_ne_nil (n / 10)
      have hh : (natDigits (n / 10) ++ [digitChar (n % 10)]).head? = (natDigits (n / 10)).head? := by
        cases hd : natDigits (n / 10) with
        | nil => exact absurd hd hne
        | cons a l => simp
      rw [hh] at h
      have h1 := ih (n / 10) (by omega) h
      have h2 := digitsValue_natDigits (n / 10)
      rw [h1] at h2
      have : digitsValue ['0'] = 0 := by rfl
      omega

theorem natDigits_canonical (n : Nat) : CanonicalDigits (natDigits n) :=
  ⟨natDigits_ne_nil n, natDigits_isDigit n, natDigits_head n⟩

theorem natDigits_head_ne_minus (n : Nat) : (natDigits n).head? ≠ some '-' := by
  intro h
  cases hd : natDigits n with
  | nil => rw [hd] at h; simp at h
  | cons a l =>
    rw [hd] at h
    simp only [List.head?_cons, Option.some.injEq] at h
    have := natDigits_isDigit n a (by rw [hd]; simp)
    rw [h] at this
    exact absurd this (by decide)

theorem formatInt_canonical (v : Int) : IsCanonicalDecimal (formatInt v) v := by
  unfold IsCanonicalDecimal formatInt
  by_cases hv : v < 0
  · simp only [hv, if_true, List.head?_cons, List.tail_cons]
    refine ⟨trivial, natDigits_canonical _, ?_⟩
    rw [digitsValue_natDigits]
    omega
  · simp only [hv, if_false, natDigits_head_ne_minus]
    refine ⟨by omega, natDigits_canonical _, ?_⟩
    rw [digitsValue_natDigits]
    omega

theorem digitChar_digitValue (c : Char) (h : c.isDigit = true) :
    digitValue c < 10 ∧ digitChar (digitValue c) = c := by
  have h1 : 48 ≤ c.toNat ∧ c.toNat ≤ 57 := by
    simp only [Char.isDigit, Bool.and_eq_true, decide_eq_true_eq] at h
    have a := h.1
    have b := h.2
    have a1 : (48 : UInt32).toNat ≤ c.val.toNat := a
    have b1 : c.val.toNat ≤ (57 : UInt32).toNat := b
    exact ⟨a1, b1⟩
  refine ⟨by unfold digitValue; omega, ?_⟩
  unfold digitChar digitValue
  have : 48 + (c.toNat - 48) = c.toNat := by omega
  rw [this]
  exact Char.ofNat_toNat c

theorem natDigits_digitsValue (ds : List Char) (h : CanonicalDigits ds) :
    natDigits (digitsValue ds) = ds := by
  induction ds using List.reverseRecOn with
  | nil => exact absurd rfl h.1
  | append_singleton l a ih =>
    obtain ⟨_, hdig, hhead⟩ := h
    have ha := digitChar_digitValue a (hdig a (by simp))
    rw [digitsValue_append_singleton, natDigits_eq]
    by_cases hl : l = []
    · subst hl
      have h0 : digitsValue [] = 0 := rfl
      have e1 : (10 * digitsValue [] + digitValue a) / 10 = 0 := by rw [h0]; omega
      have e2 : (10 * digitsValue [] + digitValue a) % 10 = digitValue a := by rw [h0]; omega
      rw [if_pos e1, e2, ha.2]
      rfl
    · have hh : (l ++ [a]).head? = l.head? := by
        cases l with
        | nil => exact absurd rfl hl
        | cons b l => simp
      have hcan : CanonicalDigits l := by
        refine ⟨hl, fun c hc => hdig c (by simp [hc]), ?_⟩
        intro h0
        rw [← hh] at h0
        have := hhead h0
        cases l with
        | nil => exact absurd rfl hl
        | cons b l => simp at this
      have ihl := ih hcan
      have hne : digitsValue l ≠ 0 := by
        intro h0
        rw [h0] at ihl
        have h1 : natDigits 0 = ['0'] := by rfl
        rw [h1] at ihl
        have : (l ++ [a]).head? = some '0' := by rw [hh, ← ihl]; rfl
        have := hhead this
        rw [← ihl] at this
        simp at this
      have e1 : (10 * digitsValue l + digitValue a) / 10 = digitsValue l := by omega
      have e2 : (10 * digitsValue l + digitValue a) % 10 = digitValue a := by omega
      rw [e1, e2, if_neg hne, ihl, ha.2]

/-- The canonical decimal string of an integer is unique: it is the text
the `%d` conversion produces. -/
theorem isCanonicalDecimal_iff (t : List Char) (v : Int) :
    IsCanonicalDecimal t v ↔ t = formatInt v := by
  constructor
  · intro h
    unfold IsCanonicalDecimal at h
    unfold formatInt
    split at h
    · rename_i hm
      obtain ⟨hv, hc, hval⟩ := h
      have ht : t = '-' :: t.tail := by
        cases t with
        | nil => simp at hm
        | cons a l => simp at hm; simp [hm]
      have hn : digitsValue t.tail = v.natAbs := by omega
      rw [if_pos hv, ← hn, natDigits_digitsValue _ hc]
      exact ht
    · obtain ⟨hv, hc, hval⟩ := h
      have hn : digitsValue t = v.natAbs := by omega
      rw [if_neg (by omega), ← hn, natDigits_digitsValue _ hc]
  · intro h
    rw [h]
    exact formatInt_canonical v

/-! ## Lemmas on `wrapInt` and `sprintf` -/

theorem wrapInt_eq_self (x : Int) (h1 : -2147483648 ≤ x) (h2 : x ≤ 2147483647) :
    wrapInt x = x := by
  unfold wrapInt; omega

theorem sprintf_ten_of_fits (v : Int) (h1 : -99999999 ≤ v) (h2 : v ≤ 999999999) :
    sprintf 10 v = .ok (String.mk (formatInt v)) := by
  unfold sprintf
  rw [if_pos ((bytesWritten_le_ten_iff v).2 ⟨h1, h2⟩)]

theorem sprintf_ten_of_not_fits (v : Int) (h : ¬ (-99999999 ≤ v ∧ v ≤ 999999999)) :
    sprintf 10 v = .error .bufferOverflow := by
  unfold sprintf
  rw [if_neg (fun hb => h ((bytesWritten_le_ten_iff v).1 hb))]

theorem sprintf_ten_ok (v : Int) (t : String) (h : sprintf 10 v = .ok t) :
    t = String.mk (formatInt v) ∧ -99999999 ≤ v ∧ v ≤ 999999999 := by
  by_cases hf : -99999999 ≤ v ∧ v ≤ 999999999
  · rw [sprintf_ten_of_fits v hf.1 hf.2] at h
    exact ⟨(Except.ok.inj h).symm, hf⟩
  · rw [sprintf_ten_of_not_fits v hf] at h
    cases h

theorem counterOf_eq_some (s : AppState) (win : Nat) (v : Int) (h : s.counterOf win = some v) :
    ∃ w, s.wins[win]? = some w ∧ w.counter = v := by
  unfold AppState.counterOf at h
  cases hw : s.wins[win]? with
  | none => rw [hw] at h; cases h
  | some w => rw [hw] at h; exact ⟨w, rfl, Option.some.inj h⟩

theorem counterOf_set_same (s : AppState) (win : Nat) (w w1 : CounterAppWindow) (ls : List String)
    (h : s.wins[win]? = some w) :
    AppState.counterOf { s with wins := s.wins.set win w1, labels := ls } win = some w1.counter := by
  have hlt : win < s.wins.length := by
    rcases List.getElem?_eq_some_iff.1 h with ⟨hlt, _⟩
    exact hlt
  simp [AppState.counterOf, List.getElem?_set_self, hlt]

/-! ## The click handlers -/

/-- The imperative increase handler on a value whose successor fits the buffer. -/
theorem increase_click_callback_of_fits (btn : GtkButton) (s : MainState)
    (h1 : -100000000 ≤ s.counter) (h2 : s.counter ≤ 999999998) :
    increase_click_callback btn s =
      .ok { s with counter := s.counter + 1,
                   labels := gtk_label_set_label s.labels s.labelCounter
                     (String.mk (formatInt (s.counter + 1))) } := by
  unfold increase_click_callback
  simp only [wrapInt_eq_self (s.counter + 1) (by omega) (by omega),
    sprintf_ten_of_fits (s.counter + 1) (by omega) (by omega)]

/-- The imperative decrease handler on a value whose predecessor fits the buffer. -/
theorem decrease_click_callback_of_fits (btn : GtkButton) (s : MainState)
    (h1 : -99999998 ≤ s.counter) (h2 : s.counter ≤ 1000000000) :
    decrease_click_callback btn s =
      .ok { s with counter := s.counter - 1,
                   labels := gtk_label_set_label s.labels s.labelCounter
                     (String.mk (formatInt (s.counter - 1))) } := by
  unfold decrease_click_callback
  simp only [wrapInt_eq_self (s.counter - 1) (by omega) (by omega),
    sprintf_ten_of_fits (s.counter - 1) (by omega) (by omega)]

/-- The template increase handler on a value whose successor fits the buffer. -/
theorem button_increase_on_clicked_of_fits (btn : GtkButton) (win : Nat) (s : AppState)
    (w : CounterAppWindow) (hw : s.wins[win]? = some w)
    (h1 : -100000000 ≤ w.counter) (h2 : w.counter ≤ 999999998) :
    button_increase_on_clicked btn win s =
      .ok { s with wins := s.wins.set win { w with counter := w.counter + 1 },
                   labels := gtk_label_set_label s.labels w.label_counter
                     (String.mk (formatInt (w.counter + 1))) } := by
  unfold button_increase_on_clicked
  simp only [hw, wrapInt_eq_self (w.counter + 1) (by omega) (by omega),
    sprintf_ten_of_fits (w.counter + 1) (by omega) (by omega)]

/-- The template decrease handler on a value whose predecessor fits the buffer. -/
theorem button_decrease_on_clicked_of_fits (btn : GtkButton) (win : Nat) (s : AppState)
    (w : CounterAppWindow) (hw : s.wins[win]? = some w)
    (h1 : -99999998 ≤ w.counter) (h2 : w.counter ≤ 1000000000) :
    button_decrease_on_clicked btn win s =
      .ok { s with wins := s.wins.set win { w with counter := w.counter - 1 },
                   labels := gtk_label_set_label s.labels w.label_counter
                     (String.mk (formatInt (w.counter - 1))) } := by
  unfold button_decrease_on_clicked
  simp only [hw, wrapInt_eq_self (w.counter - 1) (by omega) (by omega),
    sprintf_ten_of_fits (w.counter - 1) (by omega) (by omega)]

/-- Where the text of `v + 1` fits the 10-byte buffer, that is for
`-100000000 ≤ v ≤ 999999998`, the increase handler of either variant returns
normally and leaves the counter equal to `v + 1`. -/
theorem increase_handler_adds_one (v : Int) (h1 : -100000000 ≤ v) (h2 : v ≤ 999999998) :
    (∀ (btn : GtkButton) (s : MainState), s.counter = v →
      ∃ s1, increase_click_callback btn s = .ok s1 ∧ s1.counter = v + 1) ∧
    (∀ (btn : GtkButton) (win : Nat) (s : AppState), s.counterOf win = some v →
      ∃ s1, button_increase_on_clicked btn win s = .ok s1 ∧ s1.counterOf win = some (v + 1)) := by
  constructor
  · intro btn s hs
    subst hs
    exact ⟨_, increase_click_callback_of_fits btn s h1 h2, rfl⟩
  · intro btn win s hs
    obtain ⟨w, hw, hv⟩ := counterOf_eq_some s win v hs
    subst hv
    refine ⟨_, button_increase_on_clicked_of_fits btn win s w hw h1 h2, ?_⟩
    exact counterOf_set_same s win w _ _ hw

/-- Instance of `increase_handler_adds_one` at the counter value 41. -/
theorem increase_handler_adds_one_witness :
    (∃ s1, increase_click_callback 0 ⟨41, some 0, ["41"]⟩ = .ok s1 ∧ s1.counter = 41 + 1) ∧
    (∃ s1, button_increase_on_clicked 0 0 ⟨["41"], [⟨some 0, 41⟩], [0]⟩ = .ok s1 ∧
      s1.counterOf 0 = some (41 + 1)) :=
  ⟨(increase_handler_adds_one 41 (by decide) (by decide)).1 0 ⟨41, some 0, ["41"]⟩ rfl,
   (increase_handler_adds_one 41 (by decide) (by decide)).2 0 0
      ⟨["41"], [⟨some 0, 41⟩], [0]⟩ rfl⟩

/-- Claim C1 at the counter value 999999999: the incremented value is
1000000000, as the claim says, but its text and the NUL take 11 bytes and
the handler of either variant writes them into its 10-byte buffer, a write
past the end of the array instead of a normal return. -/
theorem increase_handler_overflows_buffer :
    increase_click_callback 0 ⟨999999999, some 0, ["999999999"]⟩ = .error .bufferOverflow ∧
    button_increase_on_clicked 0 0 ⟨["999999999"], [⟨some 0, 999999999⟩], [0]⟩ =
      .error .bufferOverflow ∧
    wrapInt (999999999 + 1) = 999999999 + 1 ∧
    bytesWritten (999999999 + 1) = 11 ∧
    INT_MIN ≤ 999999999 ∧ 999999999 < INT_MAX := by
  decide

/-- Where the text of `v - 1` fits the 10-byte buffer, that is for
`-99999998 ≤ v ≤ 1000000000`, the decrease handler of either variant returns
normally and leaves the counter equal to `v - 1`. -/
theorem decrease_handler_subtracts_one (v : Int) (h1 : -99999998 ≤ v) (h2 : v ≤ 1000000000) :
    (∀ (btn : GtkButton) (s : MainState), s.counter = v →
      ∃ s1, decrease_click_callback btn s = .ok s1 ∧ s1.counter = v - 1) ∧
    (∀ (btn : GtkButton) (win : Nat) (s : AppState), s.counterOf win = some v →
      ∃ s1, button_decrease_on_clicked btn win s = .ok s1 ∧ s1.counterOf win = some (v - 1)) := by
  constructor
  · intro btn s hs
    subst hs
    exact ⟨_, decrease_click_callback_of_fits btn s h1 h2, rfl⟩
  · intro btn win s hs
    obtain ⟨w, hw, hv⟩ := counterOf_eq_some s win v hs
    subst hv
    refine ⟨_, button_decrease_on_clicked_of_fits btn win s w hw h1 h2, ?_⟩
    exact counterOf_set_same s win w _ _ hw

/-- Instance of `decrease_handler_subtracts_one` at the counter value 0. -/
theorem decrease_handler_subtracts_one_witness :
    (∃ s1, decrease_click_callback 0 ⟨0, some 0, ["0"]⟩ = .ok s1 ∧ s1.counter = 0 - 1) ∧
    (∃ s1, button_decrease_on_clicked 0 0 ⟨["0"], [⟨some 0, 0⟩], [0]⟩ = .ok s1 ∧
      s1.counterOf 0 = some (0 - 1)) :=
  ⟨(decrease_handler_subtracts_one 0 (by decide) (by decide)).1 0 ⟨0, some 0, ["0"]⟩ rfl,
   (decrease_handler_subtracts_one 0 (by decide) (by decide)).2 0 0
      ⟨["0"], [⟨some 0, 0⟩], [0]⟩ rfl⟩

/-- Claim C2 at the counter value -99999999: the decremented value is
-100000000, as the claim says, but its text and the NUL take 11 bytes and
the handler of either variant writes them into its 10-byte buffer, a write
past the end of the array instead of a normal return. -/
theorem decrease_handler_overflows_buffer :
    decrease_click_callback 0 ⟨-99999999, some 0, ["-99999999"]⟩ = .error .bufferOverflow ∧
    button_decrease_on_clicked 0 0 ⟨["-99999999"], [⟨some 0, -99999999⟩], [0]⟩ =
      .error .bufferOverflow ∧
    wrapInt (-99999999 - 1) = -99999999 - 1 ∧
    bytesWritten (-99999999 - 1) = 11 ∧
    INT_MIN < -99999999 ∧ -99999999 ≤ INT_MAX := by
  decide

/-! ## The label after a click -/

theorem boundLabel_main_ne_none (s : MainState) (h : s.boundLabel ≠ none) :
    ∃ p, s.labelCounter = some p ∧ p < s.labels.length := by
  unfold MainState.boundLabel at h
  cases hp : s.labelCounter with
  | none => rw [hp] at h; exact absurd rfl h
  | some p =>
    rw [hp] at h
    refine ⟨p, rfl, ?_⟩
    by_contra hlt
    exact h (List.getElem?_eq_none (by omega))

theorem boundLabel_app_ne_none (s : AppState) (win : Nat) (h : s.boundLabel win ≠ none) :
    ∃ w p, s.wins[win]? = some w ∧ w.label_counter = some p ∧ p < s.labels.length := by
  unfold AppState.boundLabel at h
  split at h
  · exact absurd rfl h
  · rename_i w hw
    split at h
    · exact absurd rfl h
    · rename_i p hp
      refine ⟨w, p, hw, hp, ?_⟩
      by_contra hlt
      exact h (List.getElem?_eq_none (by omega))

theorem increase_click_callback_ok (btn : GtkButton) (s s1 : MainState)
    (h : increase_click_callback btn s = .ok s1) :
    s1 = { s with counter := wrapInt (s.counter + 1),
                  labels := gtk_label_set_label s.labels s.labelCounter
                    (String.mk (formatInt (wrapInt (s.counter + 1)))) } ∧
    FitsBuffer (wrapInt (s.counter + 1)) := by
  unfold increase_click_callback at h
  cases hs : sprintf 10 (wrapInt (s.counter + 1)) with
  | error e => simp only [hs] at h; cases h
  | ok t =>
    simp only [hs] at h
    obtain ⟨ht, hf⟩ := sprintf_ten_ok _ _ hs
    rw [← ht]
    exact ⟨(Except.ok.inj h).symm, hf⟩

theorem decrease_click_callback_ok (btn : GtkButton) (s s1 : MainState)
    (h : decrease_click_callback btn s = .ok s1) :
    s1 = { s with counter := wrapInt (s.counter - 1),
                  labels := gtk_label_set_label s.labels s.labelCounter
                    (String.mk (formatInt (wrapInt (s.counter - 1)))) } ∧
    FitsBuffer (wrapInt (s.counter - 1)) := by
  unfold decrease_click_callback at h
  cases hs : sprintf 10 (wrapInt (s.counter - 1)) with
  | error e => simp only [hs] at h; cases h
  | ok t =>
    simp only [hs] at h
    obtain ⟨ht, hf⟩ := sprintf_ten_ok _ _ hs
    rw [← ht]
    exact ⟨(Except.ok.inj h).symm, hf⟩

theorem button_increase_on_clicked_ok (btn : GtkButton) (win : Nat) (s s1 : AppState)
    (h : button_increase_on_clicked btn win s = .ok s1) :
    ∃ w, s.wins[win]? = some w ∧
      s1 = { s with wins := s.wins.set win { w with counter := wrapInt (w.counter + 1) },
                    labels := gtk_label_set_label s.labels w.label_counter
                      (String.mk (formatInt (wrapInt (w.counter + 1)))) } ∧
      FitsBuffer (wrapInt (w.counter + 1)) := by
  unfold button_increase_on_clicked at h
  cases hw : s.wins[win]? with
  | none => simp only [hw] at h; cases h
  | some w =>
    simp only [hw] at h
    cases hs : sprintf 10 (wrapInt (w.counter + 1)) with
    | error e => simp only [hs] at h; cases h
    | ok t =>
      simp only [hs] at h
      obtain ⟨ht, hf⟩ := sprintf_ten_ok _ _ hs
      subst ht
      exact ⟨w, rfl, (Except.ok.inj h).symm, hf⟩

theorem button_decrease_on_clicked_ok (btn : GtkButton) (win : Nat) (s s1 : AppState)
    (h : button_decrease_on_clicked btn win s = .ok s1) :
    ∃ w, s.wins[win]? = some w ∧
      s1 = { s with wins := s.wins.set win { w with counter := wrapInt (w.counter - 1) },
                    labels := gtk_label_set_label s.labels w.label_counter
                      (String.mk (formatInt (wrapInt (w.counter - 1)))) } ∧
      FitsBuffer (wrapInt (w.counter - 1)) := by
  unfold button_decrease_on_clicked at h
  cases hw : s.wins[win]? with
  | none => simp only [hw] at h; cases h
  | some w =>
    simp only [hw] at h
    cases hs : sprintf 10 (wrapInt (w.counter - 1)) with
    | error e => simp only [hs] at h; cases h
    | ok t =>
      simp only [hs] at h
      obtain ⟨ht, hf⟩ := sprintf_ten_ok _ _ hs
      subst ht
      exact ⟨w, rfl, (Except.ok.inj h).symm, hf⟩

/-- After a write through a bound label pointer the imperative label shows
the text written. -/
theorem main_label_after_set (s : MainState) (v : Int) (h : s.boundLabel ≠ none) :
    MainState.boundLabel
        { s with counter := v,
                 labels := gtk_label_set_label s.labels s.labelCounter
                   (String.mk (formatInt v)) } =
      some (String.mk (formatInt v)) := by
  obtain ⟨p, hp, hlt⟩ := boundLabel_main_ne_none s h
  simp [MainState.boundLabel, hp, gtk_label_set_label, List.getElem?_set_self, hlt]

/-- After a write through a bound label pointer the template label shows the
text written, and the counter field holds the value stored. -/
theorem app_label_after_set (s : AppState) (win : Nat) (w : CounterAppWindow) (v : Int)
    (hw : s.wins[win]? = some w) (h : s.boundLabel win ≠ none) :
    AppState.boundLabel
        { s with wins := s.wins.set win { w with counter := v },
                 labels := gtk_label_set_label s.labels w.label_counter
                   (String.mk (formatInt v)) } win =
      some (String.mk (formatInt v)) ∧
    AppState.counterOf
        { s with wins := s.wins.set win { w with counter := v },
                 labels := gtk_label_set_label s.labels w.label_counter
                   (String.mk (formatInt v)) } win =
      some v := by
  obtain ⟨w1, p, hw1, hp, hlt⟩ := boundLabel_app_ne_none s win h
  rw [hw] at hw1
  cases hw1
  have hwin : win < s.wins.length := by
    rcases List.getElem?_eq_some_iff.1 hw with ⟨hlt, _⟩
    exact hlt
  constructor
  · simp [AppState.boundLabel, hp, gtk_label_set_label, List.getElem?_set_self, hlt, hwin]
  · simp [AppState.counterOf, List.getElem?_set_self, hwin]

/-- Claim C3: whenever a click handler of either variant returns, the label
it is bound to shows the canonical decimal string of the new counter value
(digits only, no leading zero, a leading `-` exactly for a negative value);
and the handlers do return on every counter value between -99999998 and
999999998. -/
theorem click_handlers_label_shows_counter :
    (∀ (btn : GtkButton) (s s1 : MainState), s.boundLabel ≠ none →
      increase_click_callback btn s = .ok s1 ∨ decrease_click_callback btn s = .ok s1 →
      ∃ text, s1.boundLabel = some text ∧ IsCanonicalDecimal text.toList s1.counter) ∧
    (∀ (btn : GtkButton) (win : Nat) (s s1 : AppState), s.boundLabel win ≠ none →
      button_increase_on_clicked btn win s = .ok s1 ∨
        button_decrease_on_clicked btn win s = .ok s1 →
      ∃ text v, s1.boundLabel win = some text ∧ s1.counterOf win = some v ∧
        IsCanonicalDecimal text.toList v) ∧
    (∀ (btn : GtkButton) (s : MainState), -99999998 ≤ s.counter → s.counter ≤ 999999998 →
      (∃ s1, increase_click_callback btn s = .ok s1) ∧
      (∃ s1, decrease_click_callback btn s = .ok s1)) ∧
    (∀ (btn : GtkButton) (win : Nat) (s : AppState) (v : Int), s.counterOf win = some v →
      -99999998 ≤ v → v ≤ 999999998 →
      (∃ s1, button_increase_on_clicked btn win s = .ok s1) ∧
      (∃ s1, button_decrease_on_clicked btn win s = .ok s1)) := by
  refine ⟨?_, ?_, ?_, ?_⟩
  · intro btn s s1 hb h
    rcases h with h | h
    · obtain ⟨hs, _⟩ := increase_click_callback_ok btn s s1 h
      subst hs
      exact ⟨_, main_label_after_set s _ hb, formatInt_canonical _⟩
    · obtain ⟨hs, _⟩ := decrease_click_callback_ok btn s s1 h
      subst hs
      exact ⟨_, main_label_after_set s _ hb, formatInt_canonical _⟩
  · intro btn win s s1 hb h
    rcases h with h | h
    · obtain ⟨w, hw, hs, _⟩ := button_increase_on_clicked_ok btn win s s1 h
      subst hs
      obtain ⟨e1, e2⟩ := app_label_after_set s win w (wrapInt (w.counter + 1)) hw hb
      exact ⟨_, _, e1, e2, formatInt_canonical _⟩
    · obtain ⟨w, hw, hs, _⟩ := button_decrease_on_clicked_ok btn win s s1 h
      subst hs
      obtain ⟨e1, e2⟩ := app_label_after_set s win w (wrapInt (w.counter - 1)) hw hb
      exact ⟨_, _, e1, e2, formatInt_canonical _⟩
  · intro btn s h1 h2
    exact ⟨⟨_, increase_click_callback_of_fits btn s (by omega) h2⟩,
      ⟨_, decrease_click_callback_of_fits btn s h1 (by omega)⟩⟩
  · intro btn win s v hv h1 h2
    obtain ⟨w, hw, hwv⟩ := counterOf_eq_some s win v hv
    subst hwv
    exact ⟨⟨_, button_increase_on_clicked_of_fits btn win s w hw (by omega) h2⟩,
      ⟨_, button_decrease_on_clicked_of_fits btn win s w hw h1 (by omega)⟩⟩

/-- Instance of `click_handlers_label_shows_counter`: a decrease at 0 in the
imperative variant and an increase at 9 in the template variant. -/
theorem click_handlers_label_shows_counter_witness :
    (∃ text, MainState.boundLabel ⟨-1, some 0, ["-1"]⟩ = some text ∧
      IsCanonicalDecimal text.toList (-1)) ∧
    (∃ text v, AppState.boundLabel ⟨["10"], [⟨some 0, 10⟩], [0]⟩ 0 = some text ∧
      AppState.counterOf ⟨["10"], [⟨some 0, 10⟩], [0]⟩ 0 = some v ∧
      IsCanonicalDecimal text.toList v) :=
  ⟨click_handlers_label_shows_counter.1 0 ⟨0, some 0, ["0"]⟩ ⟨-1, some 0, ["-1"]⟩
      (by decide) (Or.inr (by decide)),
   click_handlers_label_shows_counter.2.1 0 0 ⟨["9"], [⟨some 0, 9⟩], [0]⟩
      ⟨["10"], [⟨some 0, 10⟩], [0]⟩ (by decide) (Or.inl (by decide))⟩


/-! ## Increase and decrease as inverses -/

/-- Where both intermediate texts fit the buffer, an increase followed by a
decrease restores the imperative counter, and so does a decrease followed by
an increase. -/
theorem main_inverse_of_fits (btn : GtkButton) (s : MainState)
    (h1 : -99999998 ≤ s.counter) (h2 : s.counter ≤ 999999998) :
    (∃ s1 s2, increase_click_callback btn s = .ok s1 ∧
      decrease_click_callback btn s1 = .ok s2 ∧ s2.counter = s.counter) ∧
    (∃ s1 s2, decrease_click_callback btn s = .ok s1 ∧
      increase_click_callback btn s1 = .ok s2 ∧ s2.counter = s.counter) := by
  constructor
  · refine ⟨_, _, increase_click_callback_of_fits btn s (by omega) h2,
      decrease_click_callback_of_fits btn _ (by simp only; omega) (by simp only; omega), ?_⟩
    simp only
    omega
  · refine ⟨_, _, decrease_click_callback_of_fits btn s h1 (by omega),
      increase_click_callback_of_fits btn _ (by simp only; omega) (by simp only; omega), ?_⟩
    simp only
    omega

/-- Claim C4 at the starting value 999999999, which is inside the range of
`int`: the increase handler of either variant has to write the 11 bytes of
`1000000000` and its NUL into the 10-byte buffer, so the increase-decrease
pair faults instead of restoring 999999999; the same happens for the
decrease-increase pair at -99999999. -/
theorem inverse_pair_overflows_buffer :
    (increase_click_callback 0 ⟨999999999, some 0, ["999999999"]⟩).bind
        (decrease_click_callback 0) = .error .bufferOverflow ∧
    (button_increase_on_clicked 0 0 ⟨["999999999"], [⟨some 0, 999999999⟩], [0]⟩).bind
        (button_decrease_on_clicked 0 0) = .error .bufferOverflow ∧
    (decrease_click_callback 0 ⟨-99999999, some 0, ["-99999999"]⟩).bind
        (increase_click_callback 0) = .error .bufferOverflow ∧
    (button_decrease_on_clicked 0 0 ⟨["-99999999"], [⟨some 0, -99999999⟩], [0]⟩).bind
        (button_increase_on_clicked 0 0) = .error .bufferOverflow ∧
    INT_MIN ≤ 999999999 ∧ 999999999 ≤ INT_MAX ∧ INT_MIN ≤ -99999999 ∧ -99999999 ≤ INT_MAX := by
  decide

/-! ## The 10-byte buffer -/

/-- Claim C9: the text of `%d` for `v` and its terminating NUL fit the 10-byte
buffer exactly when `-99999999 ≤ v ≤ 999999999`; outside that interval more
than 10 bytes are written (11 for 1000000000 and for -100000000, 12 for
`INT_MIN`), which is when `sprintf` on the buffer faults. -/
theorem sprintf_fits_ten_bytes_iff (v : Int) :
    (bytesWritten v ≤ 10 ↔ -99999999 ≤ v ∧ v ≤ 999999999) ∧
    (10 < bytesWritten v ↔ v < -99999999 ∨ 999999999 < v) ∧
    (sprintf 10 v = .error .bufferOverflow ↔ v < -99999999 ∨ 999999999 < v) ∧
    bytesWritten 1000000000 = 11 ∧ bytesWritten (-100000000) = 11 ∧
    bytesWritten INT_MIN = 12 := by
  have h := bytesWritten_le_ten_iff v
  refine ⟨h, ?_, ?_, by decide, by decide, by decide⟩
  · constructor
    · intro hb
      by_contra hc
      have : bytesWritten v ≤ 10 := h.2 (by omega)
      omega
    · intro hv
      by_contra hb
      have := h.1 (by omega)
      omega
  · constructor
    · intro hs
      by_contra hc
      rw [sprintf_ten_of_fits v (by omega) (by omega)] at hs
      cases hs
    · intro hv
      exact sprintf_ten_of_not_fits v (by omega)


/-! ## One window: runs of clicks -/

theorem netClicks_nil : netClicks [] = 0 := rfl

theorem netClicks_cons (c : Click) (cs : List Click) :
    netClicks (c :: cs) = c.delta + netClicks cs := by
  unfold netClicks
  cases c <;> simp [List.count_cons, Click.delta] <;> omega

theorem netClicks_abs_le (cs : List Click) :
    -(cs.length : Int) ≤ netClicks cs ∧ netClicks cs ≤ cs.length := by
  induction cs with
  | nil => simp [netClicks_nil]
  | cons c cs ih =>
    rw [netClicks_cons]
    cases c <;> simp only [Click.delta, List.length_cons, Nat.cast_add, Nat.cast_one] <;> omega

theorem mainSession_eq (cs : List Click) :
    mainSession cs = mainRun (cs.map (MainEvent.clicked 0)) ⟨0, some 0, ["0"]⟩ := by
  have h : mainStep MainState.init MainEvent.activate = .ok ⟨0, some 0, ["0"]⟩ := by decide
  simp only [mainSession, mainRun, h]

theorem appSession_eq (templateLabel : String) (cs : List Click) :
    appSession templateLabel cs =
      appRun templateLabel (cs.map (AppEvent.clicked 0))
        ⟨[templateLabel], [⟨some 0, 0⟩], [0]⟩ := by
  have h : appStep templateLabel AppState.init AppEvent.activate =
      .ok ⟨[templateLabel], [⟨some 0, 0⟩], [0]⟩ := by
    simp [appStep, counter_app_activate, counter_app_window_new, counter_app_window_init,
      gtk_label_new, gtk_window_present, AppState.init]
  simp only [appSession, appRun, h]

/-- One click on the only window of the imperative variant. -/
theorem main_click_step (v : Int) (x : String) (c : Click) :
    mainStep ⟨v, some 0, [x]⟩ (MainEvent.clicked 0 c) =
      match sprintf 10 (wrapInt (v + c.delta)) with
      | .error e => .error e
      | .ok t => .ok ⟨wrapInt (v + c.delta), some 0, [t]⟩ := by
  cases c
  · simp only [mainStep, List.length_singleton, Nat.lt_one_iff, if_true,
      increase_click_callback, Click.delta]
    cases sprintf 10 (wrapInt (v + 1)) <;> simp [gtk_label_set_label]
  · simp only [mainStep, List.length_singleton, Nat.lt_one_iff, if_true,
      decrease_click_callback, Click.delta]
    have e : v + -1 = v - 1 := by omega
    rw [e]
    cases sprintf 10 (wrapInt (v - 1)) <;> simp [gtk_label_set_label]

/-- One click on the only window of the template variant. -/
theorem app_click_step (templateLabel : String) (v : Int) (y : String) (c : Click) :
    appStep templateLabel ⟨[y], [⟨some 0, v⟩], [0]⟩ (AppEvent.clicked 0 c) =
      match sprintf 10 (wrapInt (v + c.delta)) with
      | .error e => .error e
      | .ok t => .ok ⟨[t], [⟨some 0, wrapInt (v + c.delta)⟩], [0]⟩ := by
  cases c
  · simp only [appStep, List.length_singleton, Nat.lt_one_iff, if_true,
      button_increase_on_clicked, Click.delta, List.getElem?_cons_zero]
    cases sprintf 10 (wrapInt (v + 1)) <;> simp [gtk_label_set_label]
  · simp only [appStep, List.length_singleton, Nat.lt_one_iff, if_true,
      button_decrease_on_clicked, Click.delta, List.getElem?_cons_zero]
    have e : v + -1 = v - 1 := by omega
    rw [e]
    cases sprintf 10 (wrapInt (v - 1)) <;> simp [gtk_label_set_label]

theorem fits_take_succ (c : Click) (cs : List Click) (v : Int)
    (h : ∀ k, 0 < k → k ≤ (c :: cs).length → FitsBuffer (v + netClicks ((c :: cs).take k))) :
    FitsBuffer (v + c.delta) ∧
    ∀ k, 0 < k → k ≤ cs.length → FitsBuffer (v + c.delta + netClicks (cs.take k)) := by
  constructor
  · have := h 1 (by omega) (by simp)
    simpa [netClicks_cons, netClicks_nil] using this
  · intro k hk hle
    have := h (k + 1) (by omega) (by simp; omega)
    rw [List.take_succ_cons, netClicks_cons] at this
    rw [add_assoc]
    exact this

/-- Clicks on the only window of the imperative variant while every running
total fits the buffer. -/
theorem main_clicks_of_fits (cs : List Click) :
    ∀ (v : Int) (x : String),
      (∀ k, 0 < k → k ≤ cs.length → FitsBuffer (v + netClicks (cs.take k))) →
      mainRun (cs.map (MainEvent.clicked 0)) ⟨v, some 0, [x]⟩ =
        .ok ⟨v + netClicks cs, some 0,
          [if cs = [] then x else String.mk (formatInt (v + netClicks cs))]⟩ := by
  induction cs with
  | nil => intro v x _; simp [mainRun, netClicks_nil]
  | cons c cs ih =>
    intro v x h
    obtain ⟨h1, h2⟩ := fits_take_succ c cs v h
    have hw : wrapInt (v + c.delta) = v + c.delta :=
      wrapInt_eq_self _ (by unfold FitsBuffer at h1; omega) (by unfold FitsBuffer at h1; omega)
    simp only [List.map_cons, mainRun, main_click_step, hw,
      sprintf_ten_of_fits _ h1.1 h1.2]
    rw [ih (v + c.delta) _ h2, netClicks_cons, add_assoc]
    by_cases hcs : cs = []
    · subst hcs; simp [netClicks_nil]
    · simp [hcs]

/-- Clicks on the only window of the template variant while every running
total fits the buffer. -/
theorem app_clicks_of_fits (templateLabel : String) (cs : List Click) :
    ∀ (v : Int) (y : String),
      (∀ k, 0 < k → k ≤ cs.length → FitsBuffer (v + netClicks (cs.take k))) →
      appRun templateLabel (cs.map (AppEvent.clicked 0)) ⟨[y], [⟨some 0, v⟩], [0]⟩ =
        .ok ⟨[if cs = [] then y else String.mk (formatInt (v + netClicks cs))],
          [⟨some 0, v + netClicks cs⟩], [0]⟩ := by
  induction cs with
  | nil => intro v y _; simp [appRun, netClicks_nil]
  | cons c cs ih =>
    intro v y h
    obtain ⟨h1, h2⟩ := fits_take_succ c cs v h
    have hw : wrapInt (v + c.delta) = v + c.delta :=
      wrapInt_eq_self _ (by unfold FitsBuffer at h1; omega) (by unfold FitsBuffer at h1; omega)
    simp only [List.map_cons, appRun, app_click_step, hw,
      sprintf_ten_of_fits _ h1.1 h1.2]
    rw [ih (v + c.delta) _ h2, netClicks_cons, add_assoc]
    by_cases hcs : cs = []
    · subst hcs; simp [netClicks_nil]
    · simp [hcs]

/-- Increases on the only window of the imperative variant fault once the
counter would pass 999999999. -/
theorem main_increases_fault (n : Nat) :
    ∀ (v : Int) (x : String), 0 ≤ v → v ≤ 999999999 → 999999999 < v + n →
      mainRun ((List.replicate n Click.increase).map (MainEvent.clicked 0))
        ⟨v, some 0, [x]⟩ = .error .bufferOverflow := by
  induction n with
  | zero => intro v x h0 h1 h2; simp at h2; omega
  | succ n ih =>
    intro v x h0 h1 h2
    have hw : wrapInt (v + 1) = v + 1 := wrapInt_eq_self _ (by omega) (by omega)
    simp only [List.replicate_succ, List.map_cons, mainRun, main_click_step, Click.delta, hw]
    by_cases hv : v = 999999999
    · subst hv
      rfl
    · rw [sprintf_ten_of_fits (v + 1) (by omega) (by omega)]
      exact ih (v + 1) _ (by omega) (by omega) (by push_cast at h2; omega)

/-- Increases on the only window of the template variant fault once the
counter would pass 999999999. -/
theorem app_increases_fault (templateLabel : String) (n : Nat) :
    ∀ (v : Int) (y : String), 0 ≤ v → v ≤ 999999999 → 999999999 < v + n →
      appRun templateLabel ((List.replicate n Click.increase).map (AppEvent.clicked 0))
        ⟨[y], [⟨some 0, v⟩], [0]⟩ = .error .bufferOverflow := by
  induction n with
  | zero => intro v y h0 h1 h2; simp at h2; omega
  | succ n ih =>
    intro v y h0 h1 h2
    have hw : wrapInt (v + 1) = v + 1 := wrapInt_eq_self _ (by omega) (by omega)
    simp only [List.replicate_succ, List.map_cons, appRun, app_click_step, Click.delta, hw]
    by_cases hv : v = 999999999
    · subst hv
      rfl
    · rw [sprintf_ten_of_fits (v + 1) (by omega) (by omega)]
      exact ih (v + 1) _ (by omega) (by omega) (by push_cast at h2; omega)

theorem replicate_increase_fits (n : Nat) (hn : n ≤ 999999999) :
    ∀ k, 0 < k → k ≤ (List.replicate n Click.increase).length →
      FitsBuffer (0 + netClicks ((List.replicate n Click.increase).take k)) := by
  intro k _ hk
  have hb := netClicks_abs_le ((List.replicate n Click.increase).take k)
  have hlen : ((List.replicate n Click.increase).take k).length ≤ n := by
    simp only [List.length_take, List.length_replicate]
    omega
  have hnn : 0 ≤ netClicks ((List.replicate n Click.increase).take k) := by
    unfold netClicks
    have : List.count Click.decrease ((List.replicate n Click.increase).take k) = 0 := by
      rw [List.count_eq_zero]
      intro hmem
      have h1 := List.mem_of_mem_take hmem
      have h2 := List.eq_of_mem_replicate h1
      cases h2
    rw [this]
    simp
  unfold FitsBuffer
  omega

theorem replicate_increase_ne_nil (n : Nat) (h : 0 < n) :
    List.replicate n Click.increase ≠ [] := by
  cases n with
  | zero => omega
  | succ n => simp [List.replicate_succ]

theorem netClicks_replicate_increase (n : Nat) :
    netClicks (List.replicate n Click.increase) = n := by
  induction n with
  | zero => rfl
  | succ n ih =>
    rw [List.replicate_succ, netClicks_cons, ih]
    simp only [Click.delta, Nat.cast_add, Nat.cast_one]
    omega

/-- From a fresh counter at 0, for every non-empty sequence of clicks all of
whose running totals (increases minus decreases of each non-empty prefix)
fit the 10-byte buffer, the run returns normally, the counter is `i - d` and
the label shows the canonical decimal string of `i - d`, in both variants;
in particular `n` increases with `1 ≤ n ≤ 999999999` display the decimal
string of `n`. -/
theorem clicks_display_net_count :
    (∀ (templateLabel : String) (cs : List Click), cs ≠ [] →
      (∀ k, 0 < k → k ≤ cs.length → FitsBuffer (netClicks (cs.take k))) →
      (∃ s text, mainSession cs = .ok s ∧
        s.counter = (cs.count Click.increase : Int) - (cs.count Click.decrease : Int) ∧
        s.windowLabel 0 = some text ∧
        IsCanonicalDecimal text.toList
          ((cs.count Click.increase : Int) - (cs.count Click.decrease : Int))) ∧
      (∃ s text, appSession templateLabel cs = .ok s ∧
        s.counterOf 0 =
          some ((cs.count Click.increase : Int) - (cs.count Click.decrease : Int)) ∧
        s.boundLabel 0 = some text ∧
        IsCanonicalDecimal text.toList
          ((cs.count Click.increase : Int) - (cs.count Click.decrease : Int)))) ∧
    (∀ (templateLabel : String) (n : Nat), 0 < n → n ≤ 999999999 →
      (∃ s text, mainSession (List.replicate n Click.increase) = .ok s ∧
        s.windowLabel 0 = some text ∧ IsCanonicalDecimal text.toList n) ∧
      (∃ s text, appSession templateLabel (List.replicate n Click.increase) = .ok s ∧
        s.boundLabel 0 = some text ∧ IsCanonicalDecimal text.toList n)) := by
  have key : ∀ (templateLabel : String) (cs : List Click), cs ≠ [] →
      (∀ k, 0 < k → k ≤ cs.length → FitsBuffer (0 + netClicks (cs.take k))) →
      (∃ s text, mainSession cs = .ok s ∧ s.counter = netClicks cs ∧
        s.windowLabel 0 = some text ∧ IsCanonicalDecimal text.toList (netClicks cs)) ∧
      (∃ s text, appSession templateLabel cs = .ok s ∧ s.counterOf 0 = some (netClicks cs) ∧
        s.boundLabel 0 = some text ∧ IsCanonicalDecimal text.toList (netClicks cs)) := by
    intro templateLabel cs hne hfit
    constructor
    · rw [mainSession_eq, main_clicks_of_fits cs 0 "0" hfit]
      refine ⟨_, String.mk (formatInt (netClicks cs)), rfl, ?_, ?_, formatInt_canonical _⟩
      · simp
      · simp [MainState.windowLabel, hne]
    · rw [appSession_eq, app_clicks_of_fits templateLabel cs 0 templateLabel hfit]
      refine ⟨_, String.mk (formatInt (netClicks cs)), rfl, ?_, ?_, formatInt_canonical _⟩
      · simp [AppState.counterOf]
      · simp [AppState.boundLabel, hne]
  constructor
  · intro templateLabel cs hne hfit
    exact key templateLabel cs hne (fun k h1 h2 => by simpa using hfit k h1 h2)
  · intro templateLabel n hpos hn
    have hne : List.replicate n Click.increase ≠ [] := by
      cases n with
      | zero => omega
      | succ n => simp [List.replicate_succ]
    have := key templateLabel (List.replicate n Click.increase) hne
      (replicate_increase_fits n hn)
    rw [netClicks_replicate_increase] at this
    obtain ⟨⟨s, text, h1, _, h3, h4⟩, ⟨s2, text2, g1, _, g3, g4⟩⟩ := this
    exact ⟨⟨s, text, h1, h3, h4⟩, ⟨s2, text2, g1, g3, g4⟩⟩

/-- Instance of `clicks_display_net_count`: three increases then one
decrease display the decimal string of 2, and the scenarios of the
specification evaluate to `1`, `-1` and `2`. -/
theorem clicks_display_net_count_witness :
    ((∃ s text,
        mainSession [Click.increase, Click.increase, Click.increase, Click.decrease] = .ok s ∧
        s.counter = ((3 : Nat) : Int) - ((1 : Nat) : Int) ∧
        s.windowLabel 0 = some text ∧
        IsCanonicalDecimal text.toList (((3 : Nat) : Int) - ((1 : Nat) : Int))) ∧
      (∃ s text,
        appSession "0" [Click.increase, Click.increase, Click.increase, Click.decrease] = .ok s ∧
        s.counterOf 0 = some (((3 : Nat) : Int) - ((1 : Nat) : Int)) ∧
        s.boundLabel 0 = some text ∧
        IsCanonicalDecimal text.toList (((3 : Nat) : Int) - ((1 : Nat) : Int)))) ∧
    mainSession [Click.increase] = .ok ⟨1, some 0, ["1"]⟩ ∧
    mainSession [Click.decrease] = .ok ⟨-1, some 0, ["-1"]⟩ ∧
    mainSession [Click.increase, Click.increase, Click.increase, Click.decrease] =
      .ok ⟨2, some 0, ["2"]⟩ ∧
    appSession "0" [Click.increase, Click.increase, Click.increase, Click.decrease] =
      .ok ⟨["2"], [⟨some 0, 2⟩], [0]⟩ :=
  ⟨clicks_display_net_count.1 "0"
      [Click.increase, Click.increase, Click.increase, Click.decrease] (by decide)
      (fun k h1 h2 => by
        have h3 : k ≤ 4 := h2
        interval_cases k <;> decide),
    by decide, by decide, by decide, by decide⟩

/-- Claim C5 at a run of 1000000000 increases from a fresh counter: after
999999999 increases the counter is 999999999 and the label shows
`999999999`, as the claim says; the next increase has to write the 11 bytes
of `1000000000` and its NUL into the 10-byte buffer, so the run ends in a
write past the end of the array instead of a label showing 1000000000, in
both variants. -/
theorem billion_increases_overflow_buffer :
    mainSession (List.replicate 999999999 Click.increase) =
      .ok ⟨999999999, some 0, ["999999999"]⟩ ∧
    mainSession (List.replicate 1000000000 Click.increase) = .error .bufferOverflow ∧
    appSession "0" (List.replicate 999999999 Click.increase) =
      .ok ⟨["999999999"], [⟨some 0, 999999999⟩], [0]⟩ ∧
    appSession "0" (List.replicate 1000000000 Click.increase) = .error .bufferOverflow := by
  have hne : List.replicate 999999999 Click.increase ≠ [] :=
    replicate_increase_ne_nil 999999999 (by decide)
  have htext : String.mk (formatInt 999999999) = "999999999" := by decide
  refine ⟨?_, ?_, ?_, ?_⟩
  · rw [mainSession_eq, main_clicks_of_fits _ 0 "0"
      (replicate_increase_fits 999999999 (by decide)), netClicks_replicate_increase,
      if_neg hne]
    exact congrArg Except.ok (by simp [htext])
  · rw [mainSession_eq]
    exact main_increases_fault 1000000000 0 "0" (by decide) (by decide) (by decide)
  · rw [appSession_eq, app_clicks_of_fits "0" _ 0 "0"
      (replicate_increase_fits 999999999 (by decide)), netClicks_replicate_increase,
      if_neg hne]
    exact congrArg Except.ok (by simp [htext])
  · rw [appSession_eq]
    exact app_increases_fault "0" 1000000000 0 "0" (by decide) (by decide) (by decide)

/-! ## The two variants on one window -/

/-- From equal counters, the two variants answer the same clicks with the
same observations, provided the labels agree or a click is still to come. -/
theorem variants_simulate (templateLabel : String) (cs : List Click) :
    ∀ (v : Int) (x y : String), (cs ≠ [] ∨ x = y) →
      observed (fun s => MainState.observe s 0)
          (mainRun (cs.map (MainEvent.clicked 0)) ⟨v, some 0, [x]⟩) =
        observed (fun s => AppState.observe s 0)
          (appRun templateLabel (cs.map (AppEvent.clicked 0))
            ⟨[y], [⟨some 0, v⟩], [0]⟩) := by
  induction cs with
  | nil =>
    intro v x y h
    rcases h with h | h
    · exact absurd rfl h
    · subst h
      simp [mainRun, appRun, observed, MainState.observe, AppState.observe,
        MainState.windowLabel, AppState.counterOf, AppState.boundLabel]
  | cons c cs ih =>
    intro v x y _
    simp only [List.map_cons, mainRun, appRun, main_click_step, app_click_step]
    cases hs : sprintf 10 (wrapInt (v + c.delta)) with
    | error e => simp [observed]
    | ok t => exact ih (wrapInt (v + c.delta)) t t (Or.inr rfl)

/-- Claim C10: on one freshly created window, after every non-empty sequence
of clicks the imperative and the template variant have the same outcome: the
same fault, or the same counter value and the same label text.  Every prefix
of a click sequence is itself a click sequence, so this holds after each
click.  Runs of at most 99999999 clicks do not fault. -/
theorem variants_observationally_equal (templateLabel : String) (c : Click)
    (cs : List Click) :
    observed (fun s => MainState.observe s 0) (mainSession (c :: cs)) =
      observed (fun s => AppState.observe s 0) (appSession templateLabel (c :: cs)) ∧
    ((c :: cs).length ≤ 99999999 →
      ∃ o, observed (fun s => MainState.observe s 0) (mainSession (c :: cs)) = .ok o) := by
  constructor
  · rw [mainSession_eq, appSession_eq]
    exact variants_simulate templateLabel (c :: cs) 0 "0" templateLabel (Or.inl (by simp))
  · intro hlen
    have hfit : ∀ k, 0 < k → k ≤ (c :: cs).length →
        FitsBuffer (0 + netClicks ((c :: cs).take k)) := by
      intro k _ hk
      have hb := netClicks_abs_le ((c :: cs).take k)
      have hl : ((c :: cs).take k).length ≤ k := by
        rw [List.length_take]; omega
      unfold FitsBuffer
      omega
    rw [mainSession_eq, main_clicks_of_fits (c :: cs) 0 "0" hfit]
    exact ⟨_, rfl⟩

/-- Instance of `variants_observationally_equal`: after an increase and a
decrease both variants hold 0 and show `0`. -/
theorem variants_observationally_equal_witness :
    observed (fun s => MainState.observe s 0) (mainSession [Click.increase, Click.decrease]) =
      observed (fun s => AppState.observe s 0)
        (appSession "counter" [Click.increase, Click.decrease]) ∧
    (∃ o, observed (fun s => MainState.observe s 0)
        (mainSession [Click.increase, Click.decrease]) = .ok o) ∧
    observed (fun s => AppState.observe s 0)
        (appSession "counter" [Click.increase, Click.decrease]) = .ok (some 0, some "0") :=
  ⟨(variants_observationally_equal "counter" Click.increase [Click.decrease]).1,
   (variants_observationally_equal "counter" Click.increase [Click.decrease]).2 (by decide),
   by decide⟩


/-! ## Window creation and the operations that are not clicks -/

theorem activate_of_fits (s : MainState) (h : FitsBuffer s.counter) :
    activate s =
      .ok { s with labelCounter := some s.labels.length,
                   labels := s.labels ++ [String.mk (formatInt s.counter)] } := by
  unfold activate
  simp only [sprintf_ten_of_fits s.counter h.1 h.2, gtk_label_new]

theorem activate_ok (s s1 : MainState) (h : activate s = .ok s1) :
    s1 = { s with labelCounter := some s.labels.length,
                  labels := s.labels ++ [String.mk (formatInt s.counter)] } ∧
    FitsBuffer s.counter := by
  by_cases hf : FitsBuffer s.counter
  · rw [activate_of_fits s hf] at h
    exact ⟨(Except.ok.inj h).symm, hf⟩
  · unfold activate at h
    rw [sprintf_ten_of_not_fits s.counter hf] at h
    cases h

theorem counterOf_set_label_counter (s : AppState) (win j : Nat) (w : CounterAppWindow)
    (p : Option Nat) (ls : List String) (ws : List Nat) (hw : s.wins[win]? = some w) :
    AppState.counterOf
        { labels := ls, wins := s.wins.set win { w with label_counter := p }, windows := ws } j =
      s.counterOf j := by
  unfold AppState.counterOf
  by_cases hj : win = j
  · subst hj
    have hlt : win < s.wins.length := by
      rcases List.getElem?_eq_some_iff.1 hw with ⟨hlt, _⟩
      exact hlt
    simp [List.getElem?_set_self, hlt, hw]
  · simp [List.getElem?_set_ne hj]

theorem counter_app_window_init_ok (templateLabel : String) (win : Nat) (s s1 : AppState)
    (h : counter_app_window_init templateLabel win s = .ok s1) :
    ∃ w, s.wins[win]? = some w ∧
      s1 = { s with labels := s.labels ++ [templateLabel],
                    wins := s.wins.set win { w with label_counter := some s.labels.length } } := by
  unfold counter_app_window_init at h
  cases hw : s.wins[win]? with
  | none => simp only [hw] at h; cases h
  | some w =>
    simp only [hw, gtk_label_new] at h
    exact ⟨w, rfl, (Except.ok.inj h).symm⟩

theorem counter_app_window_new_eq (templateLabel : String) (s : AppState) :
    counter_app_window_new templateLabel s =
      .ok ({ labels := s.labels ++ [templateLabel],
             wins := s.wins ++ [{ label_counter := some s.labels.length, counter := 0 }],
             windows := s.wins.length :: s.windows }, s.wins.length) := by
  simp [counter_app_window_new, counter_app_window_init, gtk_label_new]

theorem counter_app_activate_eq (templateLabel : String) (s : AppState) :
    counter_app_activate templateLabel s =
      .ok { labels := s.labels ++ [templateLabel],
            wins := s.wins ++ [{ label_counter := some s.labels.length, counter := 0 }],
            windows := s.wins.length :: (s.wins.length :: s.windows).erase s.wins.length } := by
  simp only [counter_app_activate, counter_app_window_new_eq, gtk_window_present]

theorem foldl_counter_app_window_open (win : Nat) (files : List GFile) (s : AppState) :
    files.foldl (fun st file => counter_app_window_open win file st) s = s := by
  induction files with
  | nil => rfl
  | cons f fs ih => simp [counter_app_window_open]

theorem counter_app_open_eq (templateLabel : String) (files : List GFile) (hint : String)
    (s : AppState) :
    counter_app_open templateLabel files hint s =
      match s.windows with
      | w :: _ => .ok (gtk_window_present w s)
      | [] => .ok (gtk_window_present s.wins.length
          { labels := s.labels ++ [templateLabel],
            wins := s.wins ++ [{ label_counter := some s.labels.length, counter := 0 }],
            windows := s.wins.length :: s.windows }) := by
  unfold counter_app_open
  cases hws : s.windows with
  | nil => simp only [counter_app_window_new_eq, foldl_counter_app_window_open, hws]
  | cons w ws => simp only [foldl_counter_app_window_open]

theorem counterOf_append (s : AppState) (j : Nat) (hj : j < s.wins.length)
    (ls : List String) (extra : List CounterAppWindow) (ws : List Nat) :
    AppState.counterOf { labels := ls, wins := s.wins ++ extra, windows := ws } j =
      s.counterOf j := by
  unfold AppState.counterOf
  simp [List.getElem?_append_left hj]

/-- Claim C8: the operations that are not click handlers leave every
existing counter as it is.  `activate` of the imperative variant keeps the
global counter (and returns whenever the counter fits the buffer);
`counter_app_window_init`, `counter_app_window_open`, `counter_app_activate`
and `counter_app_open` of the template variant keep the counter of every
window that existed before the call, and the last two always return. -/
theorem counter_changes_only_by_clicks :
    (∀ s s1 : MainState, activate s = .ok s1 → s1.counter = s.counter) ∧
    (∀ s : MainState, FitsBuffer s.counter → ∃ s1, activate s = .ok s1) ∧
    (∀ (templateLabel : String) (win : Nat) (s s1 : AppState) (j : Nat),
      counter_app_window_init templateLabel win s = .ok s1 → s1.counterOf j = s.counterOf j) ∧
    (∀ (templateLabel : String) (win : Nat) (s : AppState), win < s.wins.length →
      ∃ s1, counter_app_window_init templateLabel win s = .ok s1) ∧
    (∀ (win : Nat) (file : GFile) (s : AppState) (j : Nat),
      (counter_app_window_open win file s).counterOf j = s.counterOf j) ∧
    (∀ (templateLabel : String) (s : AppState),
      ∃ s1, counter_app_activate templateLabel s = .ok s1 ∧
        ∀ j, j < s.wins.length → s1.counterOf j = s.counterOf j) ∧
    (∀ (templateLabel : String) (files : List GFile) (hint : String) (s : AppState),
      ∃ s1, counter_app_open templateLabel files hint s = .ok s1 ∧
        ∀ j, j < s.wins.length → s1.counterOf j = s.counterOf j) := by
  refine ⟨?_, ?_, ?_, ?_, ?_, ?_, ?_⟩
  · intro s s1 h
    obtain ⟨hs, _⟩ := activate_ok s s1 h
    rw [hs]
  · intro s hf
    exact ⟨_, activate_of_fits s hf⟩
  · intro templateLabel win s s1 j h
    obtain ⟨w, hw, hs⟩ := counter_app_window_init_ok templateLabel win s s1 h
    rw [hs]
    exact counterOf_set_label_counter s win j w _ _ _ hw
  · intro templateLabel win s hlt
    unfold counter_app_window_init
    rw [List.getElem?_eq_getElem hlt]
    exact ⟨_, rfl⟩
  · intro win file s j
    rfl
  · intro templateLabel s
    refine ⟨_, counter_app_activate_eq templateLabel s, ?_⟩
    intro j hj
    exact counterOf_append s j hj _ _ _
  · intro templateLabel files hint s
    rw [counter_app_open_eq]
    cases hws : s.windows with
    | nil =>
      refine ⟨_, rfl, ?_⟩
      intro j hj
      exact counterOf_append s j hj _ _ _
    | cons w ws =>
      refine ⟨_, rfl, ?_⟩
      intro j hj
      rfl

/-- Instance of `counter_changes_only_by_clicks`: a second `activate` after
one increase keeps the counter 1, and window initialisation keeps the
counter 7 of the window it initialises. -/
theorem counter_changes_only_by_clicks_witness :
    MainState.counter ⟨1, some 1, ["1", "1"]⟩ = MainState.counter ⟨1, some 0, ["1"]⟩ ∧
    (∃ s1, activate ⟨1, some 0, ["1"]⟩ = .ok s1) ∧
    AppState.counterOf ⟨["7", "0"], [⟨some 1, 7⟩], [0]⟩ 0 =
      AppState.counterOf ⟨["7"], [⟨some 0, 7⟩], [0]⟩ 0 ∧
    (∃ s1, counter_app_window_init "0" 0 ⟨["7"], [⟨some 0, 7⟩], [0]⟩ = .ok s1) :=
  ⟨counter_changes_only_by_clicks.1 ⟨1, some 0, ["1"]⟩ ⟨1, some 1, ["1", "1"]⟩ (by decide),
   counter_changes_only_by_clicks.2.1 ⟨1, some 0, ["1"]⟩ (by decide),
   counter_changes_only_by_clicks.2.2.1 "0" 0 ⟨["7"], [⟨some 0, 7⟩], [0]⟩
     ⟨["7", "0"], [⟨some 1, 7⟩], [0]⟩ 0 (by decide),
   counter_changes_only_by_clicks.2.2.2.1 "0" 0 ⟨["7"], [⟨some 0, 7⟩], [0]⟩ (by decide)⟩

/-- Claim C7, amended: `counter_app_window_new` of the template variant
always returns a new window whose counter is 0.  `activate` of the
imperative variant does not reset the process-wide counter: when the counter
fits the buffer it returns, keeps the counter, and the label of the new
window shows the canonical decimal string of the current counter; this is 0
and `0` when the counter is 0 at that time, as at the first `activate` of a
process. -/
theorem new_window_counter :
    (∀ (templateLabel : String) (s : AppState),
      ∃ s1 win, counter_app_window_new templateLabel s = .ok (s1, win) ∧
        win = s.wins.length ∧ s1.counterOf win = some 0) ∧
    (∀ s : MainState, FitsBuffer s.counter →
      ∃ s1 text, activate s = .ok s1 ∧ s1.counter = s.counter ∧
        s1.windowLabel s.labels.length = some text ∧
        IsCanonicalDecimal text.toList s.counter) ∧
    (∀ s : MainState, s.counter = 0 →
      ∃ s1, activate s = .ok s1 ∧ s1.counter = 0 ∧
        s1.windowLabel s.labels.length = some "0") ∧
    mainRun [MainEvent.activate] MainState.init = .ok ⟨0, some 0, ["0"]⟩ := by
  refine ⟨?_, ?_, ?_, by decide⟩
  · intro templateLabel s
    refine ⟨_, _, counter_app_window_new_eq templateLabel s, rfl, ?_⟩
    simp [AppState.counterOf]
  · intro s hf
    refine ⟨_, String.mk (formatInt s.counter), activate_of_fits s hf, rfl, ?_,
      formatInt_canonical _⟩
    simp [MainState.windowLabel]
  · intro s h0
    have hf : FitsBuffer s.counter := by rw [h0]; decide
    refine ⟨_, activate_of_fits s hf, h0, ?_⟩
    simp only [MainState.windowLabel, h0]
    simp
    rfl

/-- Instance of `new_window_counter`: an `activate` at counter 5 shows `5`
in the new window, and an `activate` at counter 0 shows `0`. -/
theorem new_window_counter_witness :
    (∃ s1 text, activate ⟨5, some 0, ["5"]⟩ = .ok s1 ∧ s1.counter = 5 ∧
      s1.windowLabel 1 = some text ∧ IsCanonicalDecimal text.toList 5) ∧
    (∃ s1, activate ⟨0, some 0, ["0"]⟩ = .ok s1 ∧ s1.counter = 0 ∧
      s1.windowLabel 1 = some "0") :=
  ⟨new_window_counter.2.1 ⟨5, some 0, ["5"]⟩ (by decide),
   new_window_counter.2.2.1 ⟨0, some 0, ["0"]⟩ rfl⟩

/-- Claim C7 as stated fails in the imperative variant: a second `activate`
after one increase creates a window whose counter is 1 and whose label
shows `1`, not 0. -/
theorem activate_after_click_counterexample :
    ∃ s, mainRun [MainEvent.activate, MainEvent.clicked 0 Click.increase, MainEvent.activate]
        MainState.init = .ok s ∧
      s.counter = 1 ∧ s.windowLabel 1 = some "1" ∧
      s.counter ≠ 0 ∧ s.windowLabel 1 ≠ some "0" :=
  ⟨⟨1, some 1, ["1", "1"]⟩, by decide, by decide, by decide, by decide, by decide⟩

/-! ## Several windows -/

theorem labelsDistinct_init : AppState.init.LabelsDistinct := by
  constructor
  · intro i w p h _
    simp [AppState.init] at h
  · intro i j wi wj p h _ _ _
    simp [AppState.init] at h

/-- A click handler keeps the label pointers and the size of the store. -/
theorem labelsDistinct_set_counter (s : AppState) (win : Nat) (w : CounterAppWindow) (v : Int)
    (t : String) (ws : List Nat) (hw : s.wins[win]? = some w) (h : s.LabelsDistinct) :
    AppState.LabelsDistinct
      { labels := gtk_label_set_label s.labels w.label_counter t,
        wins := s.wins.set win { w with counter := v },
        windows := ws } := by
  have hlen : (gtk_label_set_label s.labels w.label_counter t).length = s.labels.length := by
    unfold gtk_label_set_label
    cases w.label_counter <;> simp
  have hget : ∀ (i : Nat) (wi : CounterAppWindow),
      (s.wins.set win { w with counter := v })[i]? = some wi →
      ∃ wi0, s.wins[i]? = some wi0 ∧ wi0.label_counter = wi.label_counter := by
    intro i wi hi
    by_cases hiw : win = i
    · subst hiw
      have hlt : win < s.wins.length := by
        rcases List.getElem?_eq_some_iff.1 hw with ⟨hlt, _⟩
        exact hlt
      rw [List.getElem?_set_self hlt] at hi
      cases hi
      exact ⟨w, hw, rfl⟩
    · rw [List.getElem?_set_ne hiw] at hi
      exact ⟨wi, hi, rfl⟩
  constructor
  · intro i wi p hi hp
    obtain ⟨wi0, h0, hl⟩ := hget i wi hi
    simp only [hlen]
    exact h.1 i wi0 p h0 (by rw [hl]; exact hp)
  · intro i j wi wj p hi hj hpi hpj
    obtain ⟨wi0, hi0, hli⟩ := hget i wi hi
    obtain ⟨wj0, hj0, hlj⟩ := hget j wj hj
    exact h.2 i j wi0 wj0 p hi0 hj0 (by rw [hli]; exact hpi) (by rw [hlj]; exact hpj)

/-- A new window with a new label keeps the label pointers distinct. -/
theorem labelsDistinct_append (s : AppState) (t : String) (ws : List Nat)
    (h : s.LabelsDistinct) :
    AppState.LabelsDistinct
      { labels := s.labels ++ [t],
        wins := s.wins ++ [{ label_counter := some s.labels.length, counter := 0 }],
        windows := ws } := by
  have hget : ∀ (i : Nat) (wi : CounterAppWindow),
      (s.wins ++ [{ label_counter := some s.labels.length, counter := 0 }])[i]? = some wi →
      (i < s.wins.length ∧ s.wins[i]? = some wi) ∨
      (i = s.wins.length ∧ wi.label_counter = some s.labels.length) := by
    intro i wi hi
    by_cases hlt : i < s.wins.length
    · rw [List.getElem?_append_left hlt] at hi
      exact Or.inl ⟨hlt, hi⟩
    · rw [List.getElem?_append_right (by omega)] at hi
      have hi0 : i - s.wins.length = 0 := by
        by_contra hne
        have : ([({ label_counter := some s.labels.length, counter := 0 } :
            CounterAppWindow)])[i - s.wins.length]? = none :=
          List.getElem?_eq_none (by simp; omega)
        rw [this] at hi
        cases hi
      rw [hi0] at hi
      simp only [List.getElem?_cons_zero, Option.some.injEq] at hi
      refine Or.inr ⟨by omega, ?_⟩
      rw [← hi]
  constructor
  · intro i wi p hi hp
    simp only [List.length_append, List.length_singleton]
    rcases hget i wi hi with ⟨_, h0⟩ | ⟨_, h0⟩
    · have := h.1 i wi p h0 hp
      omega
    · rw [h0] at hp
      cases hp
      omega
  · intro i j wi wj p hi hj hpi hpj
    rcases hget i wi hi with ⟨_, hi0⟩ | ⟨hie, hi0⟩
    · rcases hget j wj hj with ⟨_, hj0⟩ | ⟨_, hj0⟩
      · exact h.2 i j wi wj p hi0 hj0 hpi hpj
      · rw [hj0] at hpj
        cases hpj
        have := h.1 i wi _ hi0 hpi
        omega
    · rcases hget j wj hj with ⟨_, hj0⟩ | ⟨hje, _⟩
      · rw [hi0] at hpi
        cases hpi
        have := h.1 j wj _ hj0 hpj
        omega
      · omega

theorem labelsDistinct_windows (s : AppState) (ws : List Nat) (h : s.LabelsDistinct) :
    AppState.LabelsDistinct { s with windows := ws } := h

/-- Every event of the template variant keeps the label pointers distinct. -/
theorem labelsDistinct_step (templateLabel : String) (s s1 : AppState) (e : AppEvent)
    (h : s.LabelsDistinct) (hs : appStep templateLabel s e = .ok s1) : s1.LabelsDistinct := by
  cases e with
  | activate =>
    simp only [appStep, counter_app_activate_eq] at hs
    rw [← Except.ok.inj hs]
    exact labelsDistinct_append s templateLabel _ h
  | openFiles files hint =>
    simp only [appStep, counter_app_open_eq] at hs
    cases hws : s.windows with
    | nil =>
      simp only [hws, gtk_window_present] at hs
      rw [← Except.ok.inj hs]
      exact labelsDistinct_append s templateLabel _ h
    | cons w ws =>
      simp only [hws, gtk_window_present] at hs
      rw [← Except.ok.inj hs]
      exact h
  | clicked win c =>
    simp only [appStep] at hs
    by_cases hlt : win < s.wins.length
    · simp only [hlt, if_true] at hs
      cases c with
      | increase =>
        obtain ⟨w, hw, hs1, _⟩ := button_increase_on_clicked_ok win win s s1 hs
        rw [hs1]
        exact labelsDistinct_set_counter s win w _ _ _ hw h
      | decrease =>
        obtain ⟨w, hw, hs1, _⟩ := button_decrease_on_clicked_ok win win s s1 hs
        rw [hs1]
        exact labelsDistinct_set_counter s win w _ _ _ hw h
    · simp only [hlt, if_false] at hs
      rw [← Except.ok.inj hs]
      exact h

theorem labelsDistinct_run (templateLabel : String) (evs : List AppEvent) :
    ∀ (s s1 : AppState), s.LabelsDistinct → appRun templateLabel evs s = .ok s1 →
      s1.LabelsDistinct := by
  induction evs with
  | nil =>
    intro s s1 h hs
    simp only [appRun] at hs
    rw [← Except.ok.inj hs]
    exact h
  | cons e es ih =>
    intro s s1 h hs
    simp only [appRun] at hs
    cases hstep : appStep templateLabel s e with
    | error f => rw [hstep] at hs; cases hs
    | ok s2 =>
      rw [hstep] at hs
      exact ih s2 s1 (labelsDistinct_step templateLabel s s2 e h hstep) hs

/-- With distinct label pointers, a write to the counter and the label of
window `i` is not seen by another window `j`. -/
theorem observe_set_other (s : AppState) (i j : Nat) (w : CounterAppWindow) (v : Int)
    (t : String) (hij : i ≠ j) (hw : s.wins[i]? = some w) (h : s.LabelsDistinct) :
    AppState.observe
      { s with wins := s.wins.set i { w with counter := v },
               labels := gtk_label_set_label s.labels w.label_counter t } j =
      s.observe j := by
  unfold AppState.observe AppState.counterOf AppState.boundLabel
  simp only [List.getElem?_set_ne hij]
  cases hj : s.wins[j]? with
  | none => rfl
  | some wj =>
    simp only
    cases hpj : wj.label_counter with
    | none => rfl
    | some pj =>
      simp only
      unfold gtk_label_set_label
      cases hpi : w.label_counter with
      | none => rfl
      | some pi =>
        simp only
        have hne : pi ≠ pj := by
          intro hp
          subst hp
          exact hij (h.2 i j w wj pi hw hj hpi hpj)
        rw [List.getElem?_set_ne hne]

theorem pointsToLast_init : MainState.init.PointsToLast := by
  unfold MainState.PointsToLast MainState.init
  rfl

theorem gtk_label_set_label_length (ls : List String) (p : Option Nat) (t : String) :
    (gtk_label_set_label ls p t).length = ls.length := by
  unfold gtk_label_set_label
  cases p <;> simp

/-- Every event of the imperative variant keeps `labelCounter` on the label
created last. -/
theorem pointsToLast_step (s s1 : MainState) (e : MainEvent) (h : s.PointsToLast)
    (hs : mainStep s e = .ok s1) : s1.PointsToLast := by
  unfold MainState.PointsToLast at h ⊢
  cases e with
  | activate =>
    simp only [mainStep] at hs
    obtain ⟨hs1, _⟩ := activate_ok s s1 hs
    rw [hs1]
    simp
  | clicked w c =>
    simp only [mainStep] at hs
    by_cases hlt : w < s.labels.length
    · simp only [hlt, if_true] at hs
      cases c with
      | increase =>
        obtain ⟨hs1, _⟩ := increase_click_callback_ok w s s1 hs
        rw [hs1]
        simp only [gtk_label_set_label_length]
        exact h
      | decrease =>
        obtain ⟨hs1, _⟩ := decrease_click_callback_ok w s s1 hs
        rw [hs1]
        simp only [gtk_label_set_label_length]
        exact h
    · simp only [hlt, if_false] at hs
      rw [← Except.ok.inj hs]
      exact h

theorem pointsToLast_run (evs : List MainEvent) :
    ∀ (s s1 : MainState), s.PointsToLast → mainRun evs s = .ok s1 → s1.PointsToLast := by
  induction evs with
  | nil =>
    intro s s1 h hs
    simp only [mainRun] at hs
    rw [← Except.ok.inj hs]
    exact h
  | cons e es ih =>
    intro s s1 h hs
    simp only [mainRun] at hs
    cases hstep : mainStep s e with
    | error f => rw [hstep] at hs; cases hs
    | ok s2 =>
      rw [hstep] at hs
      exact ih s2 s1 (pointsToLast_step s s2 e h hstep) hs

theorem wrapInt_add_delta_ne (v : Int) (c : Click) : wrapInt (v + c.delta) ≠ v := by
  unfold wrapInt
  cases c <;> simp only [Click.delta] <;> omega

/-- A click in any window of the imperative variant, in a state where
`labelCounter` points to the label created last. -/
theorem main_click_shared (s s1 : MainState) (w : Nat) (c : Click) (h : s.PointsToLast)
    (hlt : w < s.labels.length) (hs : mainStep s (MainEvent.clicked w c) = .ok s1) :
    s1.counter = wrapInt (s.counter + c.delta) ∧ s1.counter ≠ s.counter ∧
    s1.windowLabel (s.labels.length - 1) = some (String.mk (formatInt s1.counter)) ∧
    ∀ k, k ≠ s.labels.length - 1 → s1.windowLabel k = s.windowLabel k := by
  unfold MainState.PointsToLast at h
  have hne : ¬ s.labels.length = 0 := by omega
  rw [if_neg hne] at h
  have key : s1 = { s with counter := wrapInt (s.counter + c.delta),
                           labels := s.labels.set (s.labels.length - 1)
                             (String.mk (formatInt (wrapInt (s.counter + c.delta)))) } := by
    simp only [mainStep, hlt, if_true] at hs
    cases c with
    | increase =>
      obtain ⟨hs1, _⟩ := increase_click_callback_ok w s s1 hs
      rw [hs1, h]
      rfl
    | decrease =>
      obtain ⟨hs1, _⟩ := decrease_click_callback_ok w s s1 hs
      rw [hs1, h]
      have e : s.counter + Click.decrease.delta = s.counter - 1 := by
        simp only [Click.delta]; omega
      rw [e]
      rfl
  rw [key]
  refine ⟨rfl, wrapInt_add_delta_ne _ _, ?_, ?_⟩
  · simp only [MainState.windowLabel]
    rw [List.getElem?_set_self (by omega)]
  · intro k hk
    simp only [MainState.windowLabel]
    rw [List.getElem?_set_ne (fun hc => hk hc.symm)]

/-- Claim C6, amended: in the template variant, in every state the program
can reach, a click on a button of one window changes neither the counter nor
the label text of any other window.  The imperative variant keeps one
process-wide counter and one label pointer: in every state it can reach, a
click in any window changes that shared counter, writes its text to the
label of the window created last, and leaves every other label as it is. -/
theorem windows_independent_in_template :
    (∀ (templateLabel : String) (evs : List AppEvent) (s : AppState),
      appRun templateLabel evs AppState.init = .ok s →
      ∀ (i j : Nat) (c : Click) (s1 : AppState), i ≠ j →
        appStep templateLabel s (AppEvent.clicked i c) = .ok s1 →
        s1.observe j = s.observe j) ∧
    (∀ (evs : List MainEvent) (s : MainState), mainRun evs MainState.init = .ok s →
      ∀ (w : Nat) (c : Click) (s1 : MainState), w < s.labels.length →
        mainStep s (MainEvent.clicked w c) = .ok s1 →
        s1.counter = wrapInt (s.counter + c.delta) ∧ s1.counter ≠ s.counter ∧
        s1.windowLabel (s.labels.length - 1) = some (String.mk (formatInt s1.counter)) ∧
        ∀ k, k ≠ s.labels.length - 1 → s1.windowLabel k = s.windowLabel k) := by
  constructor
  · intro templateLabel evs s hrun i j c s1 hij hstep
    have hd := labelsDistinct_run templateLabel evs _ s labelsDistinct_init hrun
    simp only [appStep] at hstep
    by_cases hlt : i < s.wins.length
    · simp only [hlt, if_true] at hstep
      cases c with
      | increase =>
        obtain ⟨w, hw, hs1, _⟩ := button_increase_on_clicked_ok i i s s1 hstep
        rw [hs1]
        exact observe_set_other s i j w _ _ hij hw hd
      | decrease =>
        obtain ⟨w, hw, hs1, _⟩ := button_decrease_on_clicked_ok i i s s1 hstep
        rw [hs1]
        exact observe_set_other s i j w _ _ hij hw hd
    · simp only [hlt, if_false] at hstep
      rw [← Except.ok.inj hstep]
  · intro evs s hrun w c s1 hlt hstep
    exact main_click_shared s s1 w c (pointsToLast_run evs _ s pointsToLast_init hrun) hlt hstep

/-- Instance of `windows_independent_in_template`: with two windows, an
increase in window 0 of the template variant leaves window 1 at 0 and `0`;
the same click in the imperative variant moves the shared counter to 1 and
writes `1` to the label of window 1. -/
theorem windows_independent_in_template_witness :
    AppState.observe ⟨["1", "0"], [⟨some 0, 1⟩, ⟨some 1, 0⟩], [1, 0]⟩ 1 =
      AppState.observe ⟨["0", "0"], [⟨some 0, 0⟩, ⟨some 1, 0⟩], [1, 0]⟩ 1 ∧
    MainState.counter ⟨1, some 1, ["0", "1"]⟩ ≠ MainState.counter ⟨0, some 1, ["0", "0"]⟩ ∧
    MainState.windowLabel ⟨1, some 1, ["0", "1"]⟩ (2 - 1) = some (String.mk (formatInt 1)) ∧
    MainState.windowLabel ⟨1, some 1, ["0", "1"]⟩ 0 =
      MainState.windowLabel ⟨0, some 1, ["0", "0"]⟩ 0 :=
  ⟨windows_independent_in_template.1 "0" [AppEvent.activate, AppEvent.activate]
      ⟨["0", "0"], [⟨some 0, 0⟩, ⟨some 1, 0⟩], [1, 0]⟩ (by decide) 0 1 Click.increase
      ⟨["1", "0"], [⟨some 0, 1⟩, ⟨some 1, 0⟩], [1, 0]⟩ (by decide) (by decide),
   (windows_independent_in_template.2 [MainEvent.activate, MainEvent.activate]
      ⟨0, some 1, ["0", "0"]⟩ (by decide) 0 Click.increase ⟨1, some 1, ["0", "1"]⟩
      (by decide) (by decide)).2.1,
   (windows_independent_in_template.2 [MainEvent.activate, MainEvent.activate]
      ⟨0, some 1, ["0", "0"]⟩ (by decide) 0 Click.increase ⟨1, some 1, ["0", "1"]⟩
      (by decide) (by decide)).2.2.1,
   (windows_independent_in_template.2 [MainEvent.activate, MainEvent.activate]
      ⟨0, some 1, ["0", "0"]⟩ (by decide) 0 Click.increase ⟨1, some 1, ["0", "1"]⟩
      (by decide) (by decide)).2.2.2 0 (by decide)⟩

/-- Claim C6 as stated fails in the imperative variant: with two windows,
each showing `0`, an increase click in window 0 changes the counter window 1
works on from 0 to 1 and the label of window 1 from `0` to `1` (the label of
window 0 itself stays `0`). -/
theorem two_windows_imperative_counterexample :
    ∃ s s1, mainRun [MainEvent.activate, MainEvent.activate] MainState.init = .ok s ∧
      mainStep s (MainEvent.clicked 0 Click.increase) = .ok s1 ∧
      s.observe 1 = (some 0, some "0") ∧ s1.observe 1 = (some 1, some "1") ∧
      s1.observe 1 ≠ s.observe 1 ∧ s1.windowLabel 0 = some "0" :=
  ⟨⟨0, some 1, ["0", "0"]⟩, ⟨1, some 1, ["0", "1"]⟩,
    by decide, by decide, by decide, by decide, by decide, by decide⟩
end CounterSamples
